import Mathlib

/-!
Verification of the greengraph graph-assembly and linear-solve core.

This file gives a shallow embedding, in Lean 4, of the parts of the
greengraph repository that the verified properties concern:

* `src/greengraph/math/matrix.py` — `calculate_production_vector`,
  `calculate_inventory_vector`, `calculate_impact_matrix`;
* `src/greengraph/math/conversion.py` — `_generate_matrices_from_graph`;
* `src/greengraph/importers/databases/generic.py` —
  `graph_system_from_input_output_matrices`,
  `graph_system_from_node_and_edge_lists`;
* `src/greengraph/utility/graph.py` — `graph_from_matrix` (imported by
  the generic importer under its earlier name `from_biadjacency_matrix`);
* the networkx operations those functions call (`MultiDiGraph` node/edge
  insertion, `compose`, `from_numpy_array`,
  `bipartite.biadjacency_matrix`, `relabel_nodes`) restricted to the ways
  this repository calls them.

Modelling conventions:

* Python floats are modelled as exact rationals.  To keep every concrete
  computation kernel-reducible (`decide`), rationals are built here as a
  quotient `Q2` of integer pairs (numerator, positive denominator) by
  cross-multiplication, instead of Mathlib's `Rat` (whose normalisation
  by `Nat.gcd` does not reduce in the kernel).  Division by zero yields
  `0` in this model; every theorem below that divides keeps denominators
  nonzero, matching the finite-float runs of the source.
* Python strings are modelled as `String`; the lexicographic
  code-point order used by `sorted` is modelled by `strLeB`.
* Python dictionaries are insertion-ordered association lists; updating
  an existing key keeps its position, as in CPython.
* Python exceptions are an explicit error type `PyErr`; each constructor
  names the Python exception class raised at the corresponding raise
  site.  Functions that can raise return `Except PyErr _`.  In-place
  mutation of caller-supplied data is modelled by returning the final
  state of those inputs alongside the result.
-/

/-- Integer fraction with positive denominator: the raw representation of
an exact rational before quotienting. -/
def RatPre : Type := Int × {d : Int // 0 < d}

/-- Cross-multiplication equivalence on raw fractions. -/
def ratEquiv (x y : RatPre) : Prop := x.1 * y.2.1 = y.1 * x.2.1

theorem ratEquiv_refl (x : RatPre) : ratEquiv x x := rfl

theorem ratEquiv_symm {x y : RatPre} (h : ratEquiv x y) : ratEquiv y x := h.symm

theorem ratEquiv_trans {x y z : RatPre} (h1 : ratEquiv x y) (h2 : ratEquiv y z) :
    ratEquiv x z := by
  have hy := y.2.2
  unfold ratEquiv at h1 h2 ⊢
  have h3 : x.1 * z.2.1 * y.2.1 = z.1 * x.2.1 * y.2.1 := by
    linear_combination z.2.1 * h1 + x.2.1 * h2
  exact mul_right_cancel₀ (by omega) h3

instance ratSetoid : Setoid RatPre :=
  ⟨ratEquiv, ⟨ratEquiv_refl, fun h => ratEquiv_symm h, fun h1 h2 => ratEquiv_trans h1 h2⟩⟩

/-- Exact rationals: the scalar type of the embedding (Python floats). -/
def Q2 : Type := Quotient ratSetoid

/-- Build a rational from a numerator and a positive denominator. -/
def Q2.mk (n d : Int) (h : 0 < d) : Q2 := Quotient.mk ratSetoid (n, ⟨d, h⟩)

theorem int_one_pos : (0 : Int) < 1 := by omega

instance : OfNat Q2 n := ⟨Q2.mk (Int.ofNat n) 1 int_one_pos⟩

instance : Zero Q2 := ⟨Q2.mk 0 1 int_one_pos⟩

instance : One Q2 := ⟨Q2.mk 1 1 int_one_pos⟩

/-- Boolean equality test on rationals (cross multiplication). -/
def Q2.beq (x y : Q2) : Bool :=
  Quotient.lift₂ (fun a b : RatPre => decide (a.1 * b.2.1 = b.1 * a.2.1))
    (by
      intro a b c d hac hbd
      simp only [decide_eq_decide]
      constructor
      · intro h
        exact ratEquiv_trans (ratEquiv_trans (ratEquiv_symm hac) h) hbd
      · intro h
        exact ratEquiv_trans (ratEquiv_trans hac h) (ratEquiv_symm hbd))
    x y

theorem Q2.beq_iff (x y : Q2) : Q2.beq x y = true ↔ x = y := by
  induction x using Quotient.ind
  induction y using Quotient.ind
  rename_i a b
  show decide (a.1 * b.2.1 = b.1 * a.2.1) = true ↔ _
  rw [decide_eq_true_iff]
  exact ⟨fun h => Quotient.sound h, fun h => Quotient.exact h⟩

instance : DecidableEq Q2 := fun x y => decidable_of_iff (Q2.beq x y = true) (Q2.beq_iff x y)

/-- Addition of exact rationals. -/
def Q2.add (x y : Q2) : Q2 :=
  Quotient.lift₂
    (fun a b : RatPre =>
      Quotient.mk ratSetoid
        ((a.1 * b.2.1 + b.1 * a.2.1, ⟨a.2.1 * b.2.1, mul_pos a.2.2 b.2.2⟩) : RatPre))
    (by
      intro a b c d hac hbd
      apply Quotient.sound
      show (a.1 * b.2.1 + b.1 * a.2.1) * (c.2.1 * d.2.1)
          = (c.1 * d.2.1 + d.1 * c.2.1) * (a.2.1 * b.2.1)
      have hac' : a.1 * c.2.1 = c.1 * a.2.1 := hac
      have hbd' : b.1 * d.2.1 = d.1 * b.2.1 := hbd
      linear_combination b.2.1 * d.2.1 * hac' + a.2.1 * c.2.1 * hbd')
    x y

instance : Add Q2 := ⟨Q2.add⟩

/-- Negation of exact rationals. -/
def Q2.neg (x : Q2) : Q2 :=
  Quotient.lift
    (fun a : RatPre => Quotient.mk ratSetoid ((-a.1, a.2) : RatPre))
    (by
      intro a c hac
      apply Quotient.sound
      show -a.1 * c.2.1 = -c.1 * a.2.1
      have hac' : a.1 * c.2.1 = c.1 * a.2.1 := hac
      linear_combination -hac')
    x

instance : Neg Q2 := ⟨Q2.neg⟩

/-- Multiplication of exact rationals. -/
def Q2.mul (x y : Q2) : Q2 :=
  Quotient.lift₂
    (fun a b : RatPre =>
      Quotient.mk ratSetoid
        ((a.1 * b.1, ⟨a.2.1 * b.2.1, mul_pos a.2.2 b.2.2⟩) : RatPre))
    (by
      intro a b c d hac hbd
      apply Quotient.sound
      show a.1 * b.1 * (c.2.1 * d.2.1) = c.1 * d.1 * (a.2.1 * b.2.1)
      have hac' : a.1 * c.2.1 = c.1 * a.2.1 := hac
      have hbd' : b.1 * d.2.1 = d.1 * b.2.1 := hbd
      linear_combination b.1 * d.2.1 * hac' + c.1 * a.2.1 * hbd')
    x y

instance : Mul Q2 := ⟨Q2.mul⟩

instance : Sub Q2 := ⟨fun x y => x + (-y)⟩

theorem int_sign_pos_of_pos {a : Int} (h : 0 < a) : (0 : Int) < a := h

/-- Multiplicative inverse; `0` maps to `0` (the theorems below never
invert `0`, matching the finite-float runs of the source). -/
def Q2.inv (x : Q2) : Q2 :=
  Quotient.lift
    (fun a : RatPre =>
      if h : 0 < a.1 then Quotient.mk ratSetoid ((a.2.1, ⟨a.1, h⟩) : RatPre)
      else if h2 : a.1 < 0 then
        Quotient.mk ratSetoid ((-a.2.1, ⟨-a.1, by omega⟩) : RatPre)
      else Quotient.mk ratSetoid ((0, ⟨1, int_one_pos⟩) : RatPre))
    (by
      intro a c hac
      have hac' : a.1 * c.2.1 = c.1 * a.2.1 := hac
      have ha2 := a.2.2
      have hc2 := c.2.2
      dsimp only
      by_cases hpos : 0 < a.1
      · have hcp : 0 < c.1 := by nlinarith
        rw [dif_pos hpos, dif_pos hcp]
        apply Quotient.sound
        show a.2.1 * c.1 = c.2.1 * a.1
        linear_combination -hac'
      · by_cases hneg : a.1 < 0
        · have hcn : c.1 < 0 := by nlinarith
          rw [dif_neg hpos, dif_neg (by omega : ¬ 0 < c.1), dif_pos hneg, dif_pos hcn]
          apply Quotient.sound
          show -a.2.1 * -c.1 = -c.2.1 * -a.1
          linear_combination -hac'
        · have haz : a.1 = 0 := by omega
          have hcz : c.1 = 0 := by nlinarith
          rw [dif_neg hpos, dif_neg (by omega : ¬ a.1 < 0),
            dif_neg (by omega : ¬ 0 < c.1), dif_neg (by omega : ¬ c.1 < 0)])
    x

instance : Div Q2 := ⟨fun x y => x * Q2.inv y⟩

/-- Boolean `≤` on exact rationals. -/
def Q2.leB (x y : Q2) : Bool :=
  Quotient.lift₂ (fun a b : RatPre => decide (a.1 * b.2.1 ≤ b.1 * a.2.1))
    (by
      intro a b c d hac hbd
      have hac' : a.1 * c.2.1 = c.1 * a.2.1 := hac
      have hbd' : b.1 * d.2.1 = d.1 * b.2.1 := hbd
      have ha2 := a.2.2
      have hb2 := b.2.2
      have hc2 := c.2.2
      have hd2 := d.2.2
      simp only [decide_eq_decide]
      have e1 : a.1 * b.2.1 * (c.2.1 * d.2.1) = c.1 * d.2.1 * (a.2.1 * b.2.1) := by
        linear_combination b.2.1 * d.2.1 * hac'
      have e2 : b.1 * a.2.1 * (c.2.1 * d.2.1) = d.1 * c.2.1 * (a.2.1 * b.2.1) := by
        linear_combination a.2.1 * c.2.1 * hbd'
      constructor
      · intro h
        have h2 : a.1 * b.2.1 * (c.2.1 * d.2.1) ≤ b.1 * a.2.1 * (c.2.1 * d.2.1) := by
          apply mul_le_mul_of_nonneg_right h
          positivity
        rw [e1, e2] at h2
        exact le_of_mul_le_mul_right h2 (by positivity)
      · intro h
        have h2 : c.1 * d.2.1 * (a.2.1 * b.2.1) ≤ d.1 * c.2.1 * (a.2.1 * b.2.1) := by
          apply mul_le_mul_of_nonneg_right h
          positivity
        rw [← e1, ← e2] at h2
        exact le_of_mul_le_mul_right h2 (by positivity))
    x y

/-- Absolute value (models `np.abs` on a float). -/
def Q2.abs (x : Q2) : Q2 :=
  Quotient.lift
    (fun a : RatPre => Quotient.mk ratSetoid ((|a.1|, a.2) : RatPre))
    (by
      intro a c hac
      have hac' : a.1 * c.2.1 = c.1 * a.2.1 := hac
      apply Quotient.sound
      show |a.1| * c.2.1 = |c.1| * a.2.1
      have h1 : |a.1| * c.2.1 = |a.1 * c.2.1| := by
        rw [abs_mul, abs_of_pos c.2.2]
      have h2 : |c.1| * a.2.1 = |c.1 * a.2.1| := by
        rw [abs_mul, abs_of_pos a.2.2]
      rw [h1, h2, hac'])
    x

/-- Lexicographic code-point comparison of character lists (the order
Python uses on `str`). -/
def charListLe : List Char → List Char → Bool
  | [], _ => true
  | _ :: _, [] => false
  | a :: as, b :: bs =>
    if a.toNat < b.toNat then true
    else if b.toNat < a.toNat then false
    else charListLe as bs

/-- Python string `<=` (lexicographic by code point). -/
def strLeB (a b : String) : Bool := charListLe a.toList b.toList

/-- Stable insertion into a sorted list: `x` goes after every element `y`
with `le y x`.  Used to model Python `sorted` (Timsort), which is stable;
a stable sort is determined by its comparison, so insertion sort computes
the same list. -/
def insertLe {α : Type} (le : α → α → Bool) (x : α) : List α → List α
  | [] => [x]
  | y :: ys => if le y x then y :: insertLe le x ys else x :: y :: ys

/-- Stable sort modelling Python `sorted(list, key=...)` composed with a
comparison on keys. -/
def stableSort {α : Type} (le : α → α → Bool) : List α → List α
  | [] => []
  | x :: xs => insertLe le x (stableSort le xs)

/-- Python exceptions relevant to the embedded code; each constructor is
one Python exception class (nameError also covers UnboundLocalError,
its subclass). -/
inductive PyErr where
  | valueError (msg : String)
  | typeError (msg : String)
  | keyError (key : String)
  | nameError (name : String)
  | networkXError (msg : String)
  | linAlgError (msg : String)
  deriving DecidableEq

instance {ε α : Type} [DecidableEq ε] [DecidableEq α] : DecidableEq (Except ε α) := fun a b =>
  match a, b with
  | Except.ok x, Except.ok y =>
    if h : x = y then Decidable.isTrue (by rw [h])
    else Decidable.isFalse (fun hc => h (Except.ok.inj hc))
  | Except.error x, Except.error y =>
    if h : x = y then Decidable.isTrue (by rw [h])
    else Decidable.isFalse (fun hc => h (Except.error.inj hc))
  | Except.ok _, Except.error _ => Decidable.isFalse (fun hc => Except.noConfusion hc)
  | Except.error _, Except.ok _ => Decidable.isFalse (fun hc => Except.noConfusion hc)

/-- Python values stored in metadata dictionaries and node/edge
attribute dictionaries: strings, numbers, `None`. -/
inductive PyVal where
  | s (v : String)
  | q (v : Q2)
  | noneV
  deriving DecidableEq

/-- A Python dictionary with string keys: an insertion-ordered
association list, as in CPython. -/
abbrev Dict := List (String × PyVal)

/-- Dictionary lookup (`d[k]` / `d.get(k)`). -/
def dictGet (d : Dict) (k : String) : Option PyVal :=
  (d.find? (fun p => p.1 = k)).map (fun p => p.2)

/-- Dictionary assignment `d[k] = v`: an existing key keeps its position,
a new key is appended, as in CPython. -/
def dictSet : Dict → String → PyVal → Dict
  | [], k, v => [(k, v)]
  | (k', v') :: rest, k, v =>
    if k' = k then (k', v) :: rest else (k', v') :: dictSet rest k v

/-- Dictionary update `d.update(diff)` (also `{**d, **diff}`). -/
def dictUpdate (d diff : Dict) : Dict :=
  diff.foldl (fun acc p => dictSet acc p.1 p.2) d

/-- Membership test `k in d`. -/
def dictContains (d : Dict) (k : String) : Bool :=
  (dictGet d k).isSome

/-- A 2-D `xarray.DataArray` with `rows`/`cols` coordinate labels.
xarray guarantees at construction that the label lengths match the data
shape, so the embedding reads dimensions off whichever field the source
line uses. -/
structure DataArray2 where
  rows : List String
  cols : List String
  data : List (List Q2)

instance : DecidableEq DataArray2 := fun x y =>
  match x, y with
  | ⟨a1, a2, a3⟩, ⟨b1, b2, b3⟩ =>
    if h : a1 = b1 ∧ a2 = b2 ∧ a3 = b3 then
      Decidable.isTrue (by
        obtain ⟨e1, e2, e3⟩ := h
        subst e1; subst e2; subst e3; rfl)
    else Decidable.isFalse (fun hc => h (by cases hc; exact ⟨rfl, rfl, rfl⟩))

/-- A 1-D `xarray.DataArray` with `rows` coordinate labels. -/
structure DataArray1 where
  rows : List String
  data : List Q2

instance : DecidableEq DataArray1 := fun x y =>
  match x, y with
  | ⟨a1, a2⟩, ⟨b1, b2⟩ =>
    if h : a1 = b1 ∧ a2 = b2 then
      Decidable.isTrue (by obtain ⟨e1, e2⟩ := h; subst e1; subst e2; rfl)
    else Decidable.isFalse (fun hc => h (by cases hc; exact ⟨rfl, rfl⟩))

/-- Dot product of two equally long vectors. -/
def dotQ (a b : List Q2) : Q2 :=
  ((a.zip b).map (fun p => p.1 * p.2)).foldl (fun u v => u + v) 0

/-- Matrix–vector product with numpy's shape guard (`@` raises
`ValueError` when the inner dimensions disagree). -/
def npMatVec (M : List (List Q2)) (v : List Q2) : Except PyErr (List Q2) :=
  if (M.headD []).length = v.length then Except.ok (M.map (fun row => dotQ row v))
  else Except.error (PyErr.valueError "matmul: dimension mismatch")

/-- Matrix–matrix product with numpy's shape guard. -/
def npMatMul (M N : List (List Q2)) : Except PyErr (List (List Q2)) :=
  if (M.headD []).length = N.length then
    Except.ok (M.map (fun row =>
      (List.range (N.headD []).length).map (fun k => dotQ row (N.map (fun r => r.getD k 0)))))
  else Except.error (PyErr.valueError "matmul: dimension mismatch")

/-- The matrix `I - M`. -/
def eyeMinus (M : List (List Q2)) : List (List Q2) :=
  M.enum.map (fun p => p.2.enum.map (fun e => (if p.1 = e.1 then (1 : Q2) else 0) - e.2))

/-- First row with a nonzero leading coefficient, and the remaining rows
in order. -/
def findPivot : List (List Q2 × Q2) → Option ((List Q2 × Q2) × List (List Q2 × Q2))
  | [] => Option.none
  | r :: rs =>
    if (r.1.headD 0) ≠ 0 then some (r, rs)
    else
      match findPivot rs with
      | Option.none => Option.none
      | some (p, rest) => some (p, r :: rest)

/-- Eliminate the leading column of row `r` using pivot row `p`. -/
def elimStep (p r : List Q2 × Q2) : List Q2 × Q2 :=
  ((r.1.tail.zip p.1.tail).map (fun ab => ab.1 - ((r.1.headD 0) / (p.1.headD 0)) * ab.2),
    r.2 - ((r.1.headD 0) / (p.1.headD 0)) * p.2)

/-- Gaussian elimination with back substitution, recursing on the system
size. -/
def gaussGo : ℕ → List (List Q2 × Q2) → Option (List Q2)
  | 0, _ => some []
  | n + 1, rs =>
    match findPivot rs with
    | Option.none => Option.none
    | some (p, rest) =>
      match gaussGo n (rest.map (elimStep p)) with
      | Option.none => Option.none
      | some xs => some (((p.2 - dotQ p.1.tail xs) / (p.1.headD 0)) :: xs)

/-- Exact-rational model of `np.linalg.solve` (dense LU): on a square
nonsingular system it returns the unique solution, on a singular one it
fails, as LAPACK does (`LinAlgError`).  Pivot choice cannot change the
result because arithmetic here is exact. -/
def npLinalgSolve (M : List (List Q2)) (b : List Q2) : Option (List Q2) :=
  gaussGo M.length (M.zip b)

/-- Assignment through a boolean label mask,
`f[A.coords.rows.values == node] = value`: every position whose row
label equals `node` receives `value`. -/
def maskAssign (rows : List String) (f : List Q2) (node : String) (value : Q2) : List Q2 :=
  (rows.zip f).map (fun p => if p.1 = node then value else p.2)

/-- The demand loop of `calculate_production_vector`
(`src/greengraph/math/matrix.py` lines 74-80): start from a zero vector,
process the demand pairs in dictionary order, raise `ValueError` at the
first key that is not a row label. -/
def buildDemandVector (rows : List String) (demand : List (String × Q2)) :
    Except PyErr (List Q2) :=
  demand.foldlM
    (fun f p =>
      if rows.contains p.1 then Except.ok (maskAssign rows f p.1 p.2)
      else Except.error (PyErr.valueError
        ("Node " ++ p.1 ++ " not present in technosphere matrix.")))
    (rows.map (fun _ => (0 : Q2)))

/-- Embedding of `calculate_production_vector`
(`src/greengraph/math/matrix.py`): build the demand vector `f`, then
solve `(I - A) x = f` with a direct dense solve (the `isinstance`
ndarray guard always passes for a dense array, and `issparse` is then
false). -/
def calculate_production_vector (A : DataArray2) (demand : List (String × Q2)) :
    Except PyErr DataArray1 :=
  match buildDemandVector A.rows demand with
  | Except.error e => Except.error e
  | Except.ok f =>
    match npLinalgSolve (eyeMinus A.data) f with
    | Option.none => Except.error (PyErr.linAlgError "Singular matrix")
    | some x => Except.ok ⟨A.rows, x⟩

/-- Embedding of `calculate_inventory_vector`
(`src/greengraph/math/matrix.py`): after the always-passing ndarray
guards, raise `ValueError` unless `B`'s column labels equal `x`'s row
labels exactly (`np.array_equal`: same length, same order), then return
`g = B x` labelled by `B`'s rows. -/
def calculate_inventory_vector (x : DataArray1) (B : DataArray2) :
    Except PyErr DataArray1 :=
  if B.cols = x.rows then
    match npMatVec B.data x.data with
    | Except.error e => Except.error e
    | Except.ok g => Except.ok ⟨B.rows, g⟩
  else Except.error (PyErr.valueError "Columns of B and rows of x do not align!")

/-- Embedding of `calculate_impact_matrix`
(`src/greengraph/math/matrix.py` lines 442-451): unlike the vector
functions, it performs no label or ndarray check at all; it computes
`Q.data @ g_matrix.data` directly (only numpy's own shape guard can
fail) and labels the result with `Q`'s rows and `g_matrix`'s columns. -/
def calculate_impact_matrix (g_matrix : DataArray2) (Q : DataArray2) :
    Except PyErr DataArray2 :=
  match npMatMul Q.data g_matrix.data with
  | Except.error e => Except.error e
  | Except.ok h => Except.ok ⟨Q.rows, g_matrix.cols, h⟩

/-- An edge of a networkx `MultiDiGraph`: source, target, multi-edge
key, attribute dictionary. -/
structure MEdge where
  src : String
  tgt : String
  key : PyVal
  attrs : Dict

instance : DecidableEq MEdge := fun x y =>
  match x, y with
  | ⟨a1, a2, a3, a4⟩, ⟨b1, b2, b3, b4⟩ =>
    if h : a1 = b1 ∧ a2 = b2 ∧ a3 = b3 ∧ a4 = b4 then
      Decidable.isTrue (by
        obtain ⟨e1, e2, e3, e4⟩ := h
        subst e1; subst e2; subst e3; subst e4; rfl)
    else Decidable.isFalse (fun hc => h (by cases hc; exact ⟨rfl, rfl, rfl, rfl⟩))

/-- A networkx `MultiDiGraph`: insertion-ordered nodes with attribute
dictionaries, and a multi-edge list. -/
structure MultiDiGraph where
  nodes : List (String × Dict)
  edges : List MEdge

instance : DecidableEq MultiDiGraph := fun x y =>
  match x, y with
  | ⟨a1, a2⟩, ⟨b1, b2⟩ =>
    if h : a1 = b1 ∧ a2 = b2 then
      Decidable.isTrue (by obtain ⟨e1, e2⟩ := h; subst e1; subst e2; rfl)
    else Decidable.isFalse (fun hc => h (by cases hc; exact ⟨rfl, rfl⟩))

/-- The node labels of a graph, in insertion order (`list(G.nodes)`). -/
def nodeIds (G : MultiDiGraph) : List String := G.nodes.map (fun p => p.1)

/-- Attribute dictionary of a node, if present (`G.nodes[n]`). -/
def getNodeAttrs (G : MultiDiGraph) (n : String) : Option Dict :=
  (G.nodes.find? (fun p => p.1 = n)).map (fun p => p.2)

/-- Attribute dictionary of a node, `[]` when the node is absent. -/
def nodeAttrsD (G : MultiDiGraph) (n : String) : Dict := (getNodeAttrs G n).getD []

/-- Insert or update one node in a node list: an existing label keeps
its position and has its attributes dict-updated; a new label is
appended (networkx `add_node`). -/
def updateNodeAttrs : List (String × Dict) → String → Dict → List (String × Dict)
  | [], n, attrs => [(n, attrs)]
  | (m, d) :: rest, n, attrs =>
    if m = n then (m, dictUpdate d attrs) :: rest
    else (m, d) :: updateNodeAttrs rest n attrs

/-- networkx `G.add_node(n, **attrs)`. -/
def addNodeWith (G : MultiDiGraph) (n : String) (attrs : Dict) : MultiDiGraph :=
  ⟨updateNodeAttrs G.nodes n attrs, G.edges⟩

/-- networkx `G.add_nodes_from(pairs)` with per-node attribute dicts. -/
def addNodesFromData (G : MultiDiGraph) (ns : List (String × Dict)) : MultiDiGraph :=
  ns.foldl (fun acc p => addNodeWith acc p.1 p.2) G

/-- Add a node with empty attributes only when it is absent (what
`add_edge` does to missing endpoints). -/
def addNodeIfAbsent (G : MultiDiGraph) (n : String) : MultiDiGraph :=
  if (nodeIds G).contains n then G else ⟨G.nodes ++ [(n, [])], G.edges⟩

/-- Boolean freedom from duplicates (`len(set(l)) == len(l)` in the
source). -/
def nodupB : List String → Bool
  | [] => true
  | x :: xs => (! xs.contains x) && nodupB xs

/-- Is there an edge `u → v` with multi-edge key `k`? -/
def hasEdgeKey (G : MultiDiGraph) (u v : String) (k : PyVal) : Bool :=
  G.edges.any (fun e => decide (e.src = u) && decide (e.tgt = v) && decide (e.key = k))

/-- networkx `G.add_edge(u, v, key=k, **d)`: missing endpoints are added
as bare nodes; an existing `(u, v, k)` edge has its attributes
dict-updated in place; otherwise the edge is appended. -/
def addEdgeExplicit (G : MultiDiGraph) (u v : String) (k : PyVal) (d : Dict) : MultiDiGraph :=
  let G1 := addNodeIfAbsent (addNodeIfAbsent G u) v
  if hasEdgeKey G1 u v k then
    ⟨G1.nodes,
      G1.edges.map (fun e =>
        if e.src = u ∧ e.tgt = v ∧ e.key = k then ⟨e.src, e.tgt, e.key, dictUpdate e.attrs d⟩
        else e)⟩
  else ⟨G1.nodes, G1.edges ++ [⟨u, v, k, d⟩]⟩

/-- All edges `u → v`, in insertion order. -/
def edgesBetween (G : MultiDiGraph) (u v : String) : List MEdge :=
  G.edges.filter (fun e => decide (e.src = u) && decide (e.tgt = v))

/-- Natural number as an exact rational. -/
def Q2.ofNat (n : ℕ) : Q2 := Q2.mk (Int.ofNat n) 1 int_one_pos

/-- The integer key networkx assigns to a new `u → v` edge: the current
number of parallel `u → v` edges, incremented while that key is taken. -/
def freshEdgeKey (G : MultiDiGraph) (u v : String) : PyVal :=
  let c := (edgesBetween G u v).length
  match (List.range (c + 1)).find?
      (fun i => ! hasEdgeKey G u v (PyVal.q (Q2.ofNat (c + i)))) with
  | some i => PyVal.q (Q2.ofNat (c + i))
  | Option.none => PyVal.q (Q2.ofNat (2 * c + 1))

/-- networkx `G.add_edge(u, v, **d)` without an explicit key. -/
def addEdgeAuto (G : MultiDiGraph) (u v : String) (d : Dict) : MultiDiGraph :=
  addEdgeExplicit G u v (freshEdgeKey G u v) d

/-- networkx `nx.compose(G, H)` on multigraphs: a fresh graph receives
`G`'s nodes, then `H`'s (overriding attributes), then `G`'s edges, then
`H`'s (overriding attributes of an equal `(u, v, key)` triple). -/
def nxCompose (G H : MultiDiGraph) : MultiDiGraph :=
  let R := addNodesFromData (addNodesFromData ⟨[], []⟩ G.nodes) H.nodes
  let R := G.edges.foldl (fun acc e => addEdgeExplicit acc e.src e.tgt e.key e.attrs) R
  H.edges.foldl (fun acc e => addEdgeExplicit acc e.src e.tgt e.key e.attrs) R

/-- Weight read by `bipartite.biadjacency_matrix`: `d.get(weight, 1)`. -/
def edgeWeightQ (d : Dict) (w : String) : Q2 :=
  match dictGet d w with
  | some (PyVal.q x) => x
  | _ => 1

/-- Does the dictionary hold a non-numeric value under `w`?  (scipy
would then fail to build the float matrix.) -/
def nonNumericAt (d : Dict) (w : String) : Bool :=
  match dictGet d w with
  | some (PyVal.s _) => true
  | some PyVal.noneV => true
  | _ => false

/-- Embedding of `nx.algorithms.bipartite.biadjacency_matrix`: entry
`(i, j)` sums `d.get(weight, 1)` over all multi-edges from the `i`-th
row node to the `j`-th column node.  The empty/duplicate `row_order`
guards of the source are kept; a non-numeric stored weight on a counted
edge is the modelled scipy dtype failure (never exercised by the
pipelines below, whose counted edges always carry numeric weights). -/
def biadjacency (G : MultiDiGraph) (rowOrder colOrder : List String) (w : String) :
    Except PyErr (List (List Q2)) :=
  if rowOrder.length = 0 then
    Except.error (PyErr.networkXError "row_order is empty list")
  else if ! nodupB rowOrder then
    Except.error (PyErr.networkXError "Ambiguous ordering: row_order contained duplicates.")
  else if ! nodupB colOrder then
    Except.error (PyErr.networkXError "Ambiguous ordering: column_order contained duplicates.")
  else if G.edges.any
      (fun e => rowOrder.contains e.src && colOrder.contains e.tgt && nonNumericAt e.attrs w) then
    Except.error (PyErr.typeError "matrix entries must be numeric")
  else
    Except.ok (rowOrder.map (fun u =>
      colOrder.map (fun v =>
        (edgesBetween G u v).foldl (fun acc e => acc + edgeWeightQ e.attrs w) 0)))

/-- Nodes whose `type` attribute equals `t`, in graph insertion order
(the list comprehension over `G.nodes(data=True)` in the source). -/
def nodesOfType (G : MultiDiGraph) (t : String) : List String :=
  (G.nodes.filter (fun p => decide (dictGet p.2 "type" = some (PyVal.s t)))).map (fun p => p.1)

/-- Python comparison of two metadata values, where Python defines it
(two strings, or two numbers); the remaining cases raise `TypeError` in
Python and are never exercised by the theorems below, which sort
homogeneous keys only. -/
def pvLeB : PyVal → PyVal → Bool
  | PyVal.s a, PyVal.s b => strLeB a b
  | PyVal.q a, PyVal.q b => Q2.leB a b
  | _, _ => true

/-- Lexicographic comparison of Python key tuples. -/
def pvListLeB : List PyVal → List PyVal → Bool
  | [], _ => true
  | _ :: _, [] => false
  | a :: as, b :: bs => if a = b then pvListLeB as bs else pvLeB a b

/-- The sort key tuple `tuple(G.nodes[node].get(key, None) for key in keys)`. -/
def keyTuple (G : MultiDiGraph) (keys : List String) (n : String) : List PyVal :=
  keys.map (fun k => (dictGet (nodeAttrsD G n) k).getD PyVal.noneV)

/-- Sequencing of `Except` computations (each statement of the source
runs only when the previous one did not raise). -/
def exBind {e a b : Type} (x : Except e a) (f : a → Except e b) : Except e b :=
  match x with
  | Except.error err => Except.error err
  | Except.ok v => f v

/-- The production-node ordering of `_generate_matrices_from_graph`:
sorted by uuid when `A_sort_attributes is None`, else by the attribute
key tuple (Python `sorted`, stable). -/
def sortedNodesA (G : MultiDiGraph) (Asort : Option (List String)) : List String :=
  match Asort with
  | Option.none => stableSort strLeB (nodesOfType G "production")
  | some keys =>
    stableSort (fun a b => pvListLeB (keyTuple G keys a) (keyTuple G keys b))
      (nodesOfType G "production")

/-- The extension/indicator ordering of `_generate_matrices_from_graph`:
by uuid when the sort attributes are `None`; with sort attributes the
source's key lambda closes over the undefined name `sort_keys`
(`conversion.py` lines 61 and 92), so `sorted` raises `NameError` the
moment it calls the key — that is, whenever the node list is nonempty
(on an empty list `sorted` never calls the key and returns `[]`). -/
def sortedNodesBuggy (G : MultiDiGraph) (t : String) (sortAttrs : Option (List String)) :
    Except PyErr (List String) :=
  match sortAttrs with
  | Option.none => Except.ok (stableSort strLeB (nodesOfType G t))
  | some _ =>
    if (nodesOfType G t).isEmpty then Except.ok ([] : List String)
    else Except.error (PyErr.nameError "sort_keys")

/-- Sequential mapping over `Except`, stopping at the first failure (the
list comprehension inside `np.array([...])`, whose first missing
`production` key raises). -/
def mapExcept {a b e : Type} (f : a → Except e b) : List a → Except e (List b)
  | [] => Except.ok []
  | x :: xs =>
    match f x with
    | Except.error err => Except.error err
    | Except.ok y =>
      match mapExcept f xs with
      | Except.error err => Except.error err
      | Except.ok ys => Except.ok (y :: ys)

/-- The five labelled matrices `_generate_matrices_from_graph` returns. -/
structure GenMatrices where
  Amat : DataArray2
  AnormMat : DataArray2
  Bmat : DataArray2
  BnormMat : DataArray2
  Qmat : DataArray2

instance : DecidableEq GenMatrices := fun x y =>
  match x, y with
  | ⟨a1, a2, a3, a4, a5⟩, ⟨b1, b2, b3, b4, b5⟩ =>
    if h : a1 = b1 ∧ a2 = b2 ∧ a3 = b3 ∧ a4 = b4 ∧ a5 = b5 then
      Decidable.isTrue (by
        obtain ⟨e1, e2, e3, e4, e5⟩ := h
        subst e1; subst e2; subst e3; subst e4; subst e5; rfl)
    else
      Decidable.isFalse (fun hc => h (by cases hc; exact ⟨rfl, rfl, rfl, rfl, rfl⟩))

/-- Lookup `G.nodes[node]['production']` (`KeyError` when absent; the
source would only fail later, during division, on a non-numeric value,
modelled here as an immediate `TypeError`). -/
def getProductionVal (G : MultiDiGraph) (n : String) : Except PyErr Q2 :=
  match dictGet (nodeAttrsD G n) "production" with
  | some (PyVal.q v) => Except.ok v
  | some _ => Except.error (PyErr.typeError "production attribute must be numeric")
  | Option.none => Except.error (PyErr.keyError "production")

/-- numpy broadcasting of `M / p` for `M : (r, n)` and `p : (n,)`:
column `j` is divided by `p[j]` (the trailing axis). -/
def divColsBroadcast (M : List (List Q2)) (p : List Q2) : List (List Q2) :=
  M.map (fun row => (row.zip p).map (fun ab => ab.1 / ab.2))

/-- Embedding of `_generate_matrices_from_graph`
(`src/greengraph/math/conversion.py`), specialised to the configuration
every embedded claim exercises: flags `A = B = Q = True` (so the two
leading flag guards pass) and dense output.  Faithful points to note:

* production nodes are sorted by uuid when `A_sort_attributes is None`,
  else by the attribute key tuple (stable sort);
* the `B`/`Q` sort lambdas of the source close over the *undefined*
  name `sort_keys` (`conversion.py` lines 61 and 92), so as soon as
  `sorted` invokes the key on a nonempty node list Python raises
  `NameError`; an empty list never invokes the key;
* `array_production` is read off the sorted production nodes once and
  divides both `A` and `B` by numpy trailing-axis broadcasting;
* every biadjacency read uses the edge attribute `flow`. -/
def generateMatricesFromGraph (G : MultiDiGraph) (Asort Bsort Qsort : Option (List String)) :
    Except PyErr GenMatrices :=
  let listA := sortedNodesA G Asort
  exBind (biadjacency G listA listA "flow") (fun Adata =>
  exBind (mapExcept (fun n => getProductionVal G n) listA) (fun prodVals =>
  exBind (sortedNodesBuggy G "extension" Bsort) (fun listB =>
  exBind (biadjacency G listB listA "flow") (fun Bdata =>
  exBind (sortedNodesBuggy G "indicator" Qsort) (fun listQ =>
  exBind (biadjacency G listQ listB "flow") (fun Qdata =>
  Except.ok
    { Amat := ⟨listA, listA, Adata⟩
      AnormMat := ⟨listA, listA, divColsBroadcast Adata prodVals⟩
      Bmat := ⟨listB, listA, Bdata⟩
      BnormMat := ⟨listB, listA, divColsBroadcast Bdata prodVals⟩
      Qmat := ⟨listQ, listB, Qdata⟩ }))))))

/-- The nonzero entries of a matrix in row-major order
(`np.nonzero`). -/
def nonzeroEntries (M : List (List Q2)) : List (ℕ × ℕ × Q2) :=
  (M.enum.map (fun p => p.2.enum.filterMap (fun e =>
    if e.2 ≠ 0 then some (p.1, e.1, e.2) else Option.none))).flatten

/-- Embedding of `graph_from_matrix`
(`src/greengraph/utility/graph.py`, bipartite mode: `nodes_axis_1` not
`None`), which `generic.py` imports under its earlier name
`from_biadjacency_matrix` with positionally identical parameters
(`attributes_nodes_axis_0/1 ↦ common_attributes_nodes_axis_0/1`,
`amount_attribute ↦ name_amount_attribute`,
`dict_attributes ↦ common_attributes_edges`): add the axis-0 nodes with
their common attributes, then the axis-1 nodes, then one directed edge
row-node → column-node per nonzero entry, carrying
`{amount_attribute: value, **dict_attributes}`. -/
def from_biadjacency_matrix (matrix : List (List Q2)) (nodes0 nodes1 : List String)
    (attrs0 attrs1 : Dict) (amountAttr : String) (edgeAttrs : Dict) : MultiDiGraph :=
  let G := nodes0.foldl (fun acc n => addNodeWith acc n attrs0) ⟨[], []⟩
  let G := nodes1.foldl (fun acc n => addNodeWith acc n attrs1) G
  (nonzeroEntries matrix).foldl
    (fun acc t =>
      addEdgeAuto acc (nodes0.getD t.1 "") (nodes1.getD t.2.1 "")
        (dictUpdate [(amountAttr, PyVal.q t.2.2)] edgeAttrs))
    G

/-- Embedding of `nx.from_numpy_array(M, create_using=MultiDiGraph,
parallel_edges=False, edge_attr="flow", nodelist=ns)`: all listed nodes
(bare), then one edge per nonzero entry `(i, j)`, directed
`ns[i] → ns[j]`, with attribute `flow` equal to the entry. -/
def from_numpy_array (matrix : List (List Q2)) (nodelist : List String) : MultiDiGraph :=
  let G := nodelist.foldl (fun acc n => addNodeWith acc n []) ⟨[], []⟩
  (nonzeroEntries matrix).foldl
    (fun acc t =>
      addEdgeAuto acc (nodelist.getD t.1 "") (nodelist.getD t.2.1 "")
        [("flow", PyVal.q t.2.2)])
    G

/-- The caller-supplied inputs of
`graph_system_from_input_output_matrices` that the function mutates in
place (metadata dictionaries, production array); the indicator pair is
optional in the source signature. -/
structure IOInputs where
  arrayProduction : List (List Q2)
  arrayExtension : List (List Q2)
  arrayIndicator : Option (List (List Q2))
  prodMeta : List Dict
  extMeta : List Dict
  indMeta : Option (List Dict)

instance : DecidableEq IOInputs := fun x y =>
  match x, y with
  | ⟨a1, a2, a3, a4, a5, a6⟩, ⟨b1, b2, b3, b4, b5, b6⟩ =>
    if h : a1 = b1 ∧ a2 = b2 ∧ a3 = b3 ∧ a4 = b4 ∧ a5 = b5 ∧ a6 = b6 then
      Decidable.isTrue (by
        obtain ⟨e1, e2, e3, e4, e5, e6⟩ := h
        subst e1; subst e2; subst e3; subst e4; subst e5; subst e6; rfl)
    else
      Decidable.isFalse (fun hc => h (by cases hc; exact ⟨rfl, rfl, rfl, rfl, rfl, rfl⟩))

/-- Call result of `graph_system_from_input_output_matrices`: the
returned graph (or the exception raised) together with the final state
of the caller-visible inputs. -/
structure IOResult where
  result : Except PyErr MultiDiGraph
  final : IOInputs

instance : DecidableEq IOResult := fun x y =>
  match x, y with
  | ⟨a1, a2⟩, ⟨b1, b2⟩ =>
    if h : a1 = b1 ∧ a2 = b2 then
      Decidable.isTrue (by obtain ⟨e1, e2⟩ := h; subst e1; subst e2; rfl)
    else Decidable.isFalse (fun hc => h (by cases hc; exact ⟨rfl, rfl⟩))

/-- `np.fill_diagonal(M, 0)`: zero the main diagonal in place. -/
def zeroDiagonal (M : List (List Q2)) : List (List Q2) :=
  M.enum.map (fun p => p.2.enum.map (fun e => if p.1 = e.1 then (0 : Q2) else e.2))

/-- `(M >= 0).all()`. -/
def allNonnegB (M : List (List Q2)) : Bool :=
  M.all (fun row => row.all (fun v => Q2.leB 0 v))

/-- Do `name` and `unit` occur as keys? -/
def hasNameUnit (d : Dict) : Bool :=
  dictContains d "name" && dictContains d "unit"

/-- The node label a metadata dictionary supplies under `uuidKey`.
Modelling restriction: node labels are strings in this embedding, so a
present non-string value is rejected here, where the source would accept
any hashable value; no theorem below exercises that case. -/
def uuidFieldOf (d : Dict) (uuidKey : String) : Except PyErr String :=
  match dictGet d uuidKey with
  | some (PyVal.s s) => Except.ok s
  | some _ => Except.error (PyErr.typeError "uuid field must be a string in this embedding")
  | Option.none => Except.error (PyErr.keyError uuidKey)

/-- The string stored under `uuid` after metadata parsing (always
present and a string on every path that reads it). -/
def uuidStrOf (d : Dict) : String :=
  match dictGet d "uuid" with
  | some (PyVal.s s) => s
  | _ => ""

/-- One iteration of a metadata-parsing loop of
`graph_system_from_input_output_matrices` (lines 194-227): assign
`uuid` (fresh or copied from the named field — the only failing step),
then `index`, `type`, `system`, then the caller-specific extras
(`production` for production nodes). -/
def mutateOneMeta (assignNew : Bool) (uuidKey : String) (freshU : String) (idx : ℕ)
    (typeTag nameSystem : String) (extra : ℕ → Dict → Dict) (d : Dict) :
    Except PyErr Dict :=
  match (if assignNew then Except.ok freshU else uuidFieldOf d uuidKey) with
  | Except.error e => Except.error e
  | Except.ok u =>
    Except.ok (extra idx
      (dictSet (dictSet (dictSet (dictSet d "uuid" (PyVal.s u))
        "index" (PyVal.q (Q2.ofNat idx))) "type" (PyVal.s typeTag))
        "system" (PyVal.s nameSystem)))

/-- A whole metadata-parsing loop, mutating the dictionaries in order;
on failure the already-processed prefix stays mutated and the rest
untouched, as for a Python `for` loop over the list. -/
def mutateMetaList (assignNew : Bool) (uuidKey : String) (uuidGen : ℕ → String)
    (uuidBase : ℕ) (typeTag nameSystem : String) (extra : ℕ → Dict → Dict)
    (ds : List Dict) : List Dict × Option PyErr :=
  let rec go (idx : ℕ) : List Dict → List Dict × Option PyErr
    | [] => ([], Option.none)
    | d :: rest =>
      match mutateOneMeta assignNew uuidKey (uuidGen (uuidBase + idx)) idx
          typeTag nameSystem extra d with
      | Except.error e => (d :: rest, some e)
      | Except.ok d' =>
        match go (idx + 1) rest with
        | (rest', err) => (d' :: rest', err)
  go 0 ds

/-- The dictionary state after one metadata-loop iteration of
`graph_system_from_input_output_matrices`, before the loop-specific
extras: `uuid`, `index`, `type`, `system` assigned in order. -/
def specMutatedDict (u : String) (idx : ℕ) (typeTag nameSystem : String) (d : Dict) : Dict :=
  dictSet (dictSet (dictSet (dictSet d "uuid" (PyVal.s u))
    "index" (PyVal.q (Q2.ofNat idx))) "type" (PyVal.s typeTag)) "system" (PyVal.s nameSystem)

/-- Element-wise `np.abs`. -/
def absMatrix (M : List (List Q2)) : List (List Q2) :=
  M.map (fun row => row.map Q2.abs)

/-- `M[idx, idx]`. -/
def diagAt (M : List (List Q2)) (idx : ℕ) : Q2 :=
  (M.getD idx []).getD idx 0

/-- Attach every key of each metadata dictionary to its node
(`for key, value in node_metadata.items(): G.nodes[uuid][key] = value`);
node attributes are dict-updated in place. -/
def attachMetadata (G : MultiDiGraph) (ds : List Dict) : MultiDiGraph :=
  ds.foldl (fun g d => addNodeWith g (uuidStrOf d) d) G

/-- Main body of `graph_system_from_input_output_matrices` after the
indicator-pairing guards, with the indicator matrix and metadata paired
when present.  Mirrors `generic.py` lines 158-330 statement by
statement; see `graph_system_from_input_output_matrices` below for the
entry point and the documentation of the bugs this body preserves. -/
def ioMain (nameSystem : String) (assignNewUuids : Bool)
    (strProdUuid strExtUuid strIndUuid : String) (matrixConvention : String)
    (uuidGen : ℕ → String) (P E : List (List Q2)) (pm em : List Dict)
    (ind : Option (List (List Q2) × List Dict)) : IOResult :=
  let mkInp : List (List Q2) → List Dict → List Dict → Option (List Dict) → IOInputs :=
    fun P' pm' em' im' =>
      ⟨P', E, ind.map (fun p => p.1), pm', em',
        match ind, im' with
        | some p, Option.none => some p.2
        | _, some im => some im
        | Option.none, Option.none => Option.none⟩
  let inp0 := mkInp P pm em Option.none
  if P.length ≠ (P.headD []).length then
    ⟨Except.error (PyErr.valueError "Production matrix must be square."), inp0⟩
  else if (E.headD []).length ≠ P.length then
    ⟨Except.error (PyErr.valueError
      "Dimension mismatch between production and extension matrices."), inp0⟩
  else if (ind.map (fun p => decide ((p.1.headD []).length = E.length))).getD true = false then
    ⟨Except.error (PyErr.valueError
      "Dimension mismatch between indicator and extension matrices."), inp0⟩
  else if P.length ≠ pm.length then
    ⟨Except.error (PyErr.valueError
      "Dimensions of the production matrix does not match metadata dictionary length."), inp0⟩
  else if E.length ≠ em.length then
    ⟨Except.error (PyErr.valueError
      "Dimensions of the extension matrix does not match metadata dictionary length."), inp0⟩
  else if (ind.map (fun p => decide (p.1.length = p.2.length))).getD true = false then
    ⟨Except.error (PyErr.valueError
      "Dimensions of the indicator matrix does not match metadata dictionary length."), inp0⟩
  else if ¬ pm.all hasNameUnit then
    ⟨Except.error (PyErr.valueError
      "Metadata dictionary of every node must contain at least a name and unit key."), inp0⟩
  else if matrixConvention ≠ "I-A" ∧ matrixConvention ≠ "A" then
    ⟨Except.error (PyErr.valueError "matrix_convention must be I-A or A."), inp0⟩
  else if matrixConvention = "A" then
    -- line 188 zeroes the caller's diagonal in place; line 189 `A = np.abs(A)`
    -- then reads the still-unbound local `A`: UnboundLocalError, a NameError
    ⟨Except.error (PyErr.nameError "A"), mkInp (zeroDiagonal P) pm em Option.none⟩
  else if allNonnegB P = false then
    ⟨Except.error (PyErr.valueError
      "All entries in the technosphere matrix must be non-negative."), inp0⟩
  else
    match mutateMetaList assignNewUuids strProdUuid uuidGen 0 "production" nameSystem
        (fun idx d => dictSet d "production"
          (if matrixConvention = "I-A" then PyVal.q 1 else PyVal.q (diagAt P idx))) pm with
    | (pm', some e) => ⟨Except.error e, mkInp P pm' em Option.none⟩
    | (pm', Option.none) =>
      match mutateMetaList assignNewUuids strExtUuid uuidGen pm.length "extension" nameSystem
          (fun _ d => d) em with
      | (em', some e) => ⟨Except.error e, mkInp P pm' em' Option.none⟩
      | (em', Option.none) =>
        match ind with
        | Option.none =>
          let produuids := pm'.map uuidStrOf
          let extuuids := em'.map uuidStrOf
          let A := from_numpy_array (absMatrix P) produuids
          let B := from_biadjacency_matrix E extuuids produuids
            [("type", PyVal.s "extension")] [("type", PyVal.s "production")] "flow"
            [("type_origin", PyVal.s "production"), ("type_destination", PyVal.s "extension")]
          let A := attachMetadata A pm'
          let B := attachMetadata B em'
          ⟨Except.ok (nxCompose B A), mkInp P pm' em' Option.none⟩
        | some (indArr, im) =>
          match mutateMetaList assignNewUuids strIndUuid uuidGen (pm.length + em.length)
              "indicator" nameSystem (fun _ d => d) im with
          | (im', some e) => ⟨Except.error e, mkInp P pm' em' (some im')⟩
          | (im', Option.none) =>
            let produuids := pm'.map uuidStrOf
            let extuuids := em'.map uuidStrOf
            let induuids := im'.map uuidStrOf
            let A := from_numpy_array (absMatrix P) produuids
            let B := from_biadjacency_matrix E extuuids produuids
              [("type", PyVal.s "extension")] [("type", PyVal.s "production")] "flow"
              [("type_origin", PyVal.s "production"), ("type_destination", PyVal.s "extension")]
            let Q := from_biadjacency_matrix indArr induuids extuuids
              [("type", PyVal.s "indicator")] [("type", PyVal.s "extension")] "weight"
              [("type_origin", PyVal.s "extension"), ("type_destination", PyVal.s "indicator")]
            let A := attachMetadata A pm'
            let B := attachMetadata B em'
            let Q := attachMetadata Q im'
            ⟨Except.ok (nxCompose Q (nxCompose B A)), mkInp P pm' em' (some im')⟩

/-- Embedding of `graph_system_from_input_output_matrices`
(`src/greengraph/importers/databases/generic.py` lines 18-330).

* `uuidGen` injects the stream of `uuid.uuid4()` draws (draw `i` is the
  `i`-th call across the three metadata loops).
* The production/extension arrays and metadata lists are non-optional
  fields of `IOInputs`, so the guard of source lines 146-152 always
  passes; the two indicator-pairing guards of lines 153-156 are kept.
* `TypeError` for a non-numeric matrix (line 175) cannot arise: matrix
  entries are rationals by type.  The f-string counts in the length
  mismatch messages are elided.
* Faithfully preserved behaviour of the source, bugs included: under
  convention `A`, line 188 zeroes the caller's diagonal in place and
  line 189 (`A = np.abs(A)`) raises `UnboundLocalError` before any
  metadata dictionary is touched; under `I-A` every metadata dictionary
  is mutated in place (uuid, index, type, system, and `production` on
  production nodes); indicator edges are stored under the attribute
  `weight` (line 297) while production and extension edges use `flow`.
* The result graph is `compose(B, A)`, or `compose(Q, compose(B, A))`
  with an indicator matrix. -/
def graph_system_from_input_output_matrices (nameSystem : String) (assignNewUuids : Bool)
    (strProdUuid strExtUuid strIndUuid : String) (matrixConvention : String)
    (uuidGen : ℕ → String) (inp : IOInputs) : IOResult :=
  match inp.arrayIndicator, inp.indMeta with
  | Option.none, some _ =>
    ⟨Except.error (PyErr.valueError
      "If an indicator matrix is provided, metadata must also also be provided."), inp⟩
  | some _, Option.none =>
    ⟨Except.error (PyErr.valueError
      "If an indicator metadata list is provided, a matrix must also also be provided."), inp⟩
  | Option.none, Option.none =>
    ioMain nameSystem assignNewUuids strProdUuid strExtUuid strIndUuid matrixConvention
      uuidGen inp.arrayProduction inp.arrayExtension inp.prodMeta inp.extMeta Option.none
  | some indArr, some im =>
    ioMain nameSystem assignNewUuids strProdUuid strExtUuid strIndUuid matrixConvention
      uuidGen inp.arrayProduction inp.arrayExtension inp.prodMeta inp.extMeta
      (some (indArr, im))

/-- Call result of `graph_system_from_node_and_edge_lists`: returned
graph or exception, plus the final state of the two mutated metadata
lists. -/
structure NEResult where
  result : Except PyErr MultiDiGraph
  finalProdMeta : List Dict
  finalExtMeta : List Dict

instance : DecidableEq NEResult := fun x y =>
  match x, y with
  | ⟨a1, a2, a3⟩, ⟨b1, b2, b3⟩ =>
    if h : a1 = b1 ∧ a2 = b2 ∧ a3 = b3 then
      Decidable.isTrue (by obtain ⟨e1, e2, e3⟩ := h; subst e1; subst e2; subst e3; rfl)
    else Decidable.isFalse (fun hc => h (by cases hc; exact ⟨rfl, rfl, rfl⟩))

/-- One node loop of `graph_system_from_node_and_edge_lists`
(`generic.py` lines 431-447): check `name`/`unit`, tag `type` and
`system`, default `production` to `1.0` (production loop only), then
`add_node` keyed by the `uuidKey` field.  Mutation is in place: on a
failure the processed prefix and, after the `name`/`unit` check, the
current dictionary stay mutated. -/
def neMutateDict (typeTag nameSystem : String) (prodDefault : Bool) (d : Dict) : Dict :=
  let d1 := dictSet (dictSet d "type" (PyVal.s typeTag)) "system" (PyVal.s nameSystem)
  if prodDefault && ! dictContains d1 "production" then
    dictSet d1 "production" (PyVal.q 1)
  else d1

def neNodeLoop (typeTag nameSystem uuidKey : String) (prodDefault : Bool)
    (G0 : MultiDiGraph) : List Dict → MultiDiGraph × List Dict × Option PyErr
  | [] => (G0, [], Option.none)
  | d :: rest =>
    if hasNameUnit d = false then
      (G0, d :: rest, some (PyErr.valueError
        "At least name and unit attributes must be present for every node."))
    else
      match dictGet (neMutateDict typeTag nameSystem prodDefault d) uuidKey with
      | Option.none => (G0, neMutateDict typeTag nameSystem prodDefault d :: rest,
          some (PyErr.keyError uuidKey))
      | some (PyVal.s lbl) =>
        match neNodeLoop typeTag nameSystem uuidKey prodDefault
            (addNodeWith G0 lbl (neMutateDict typeTag nameSystem prodDefault d)) rest with
        | (G', rest', err) => (G', neMutateDict typeTag nameSystem prodDefault d :: rest', err)
      | some _ => (G0, neMutateDict typeTag nameSystem prodDefault d :: rest,
          some (PyErr.typeError "uuid field must be a string in this embedding"))

/-- networkx `nx.relabel_nodes(G, mapping)` for an injective mapping:
node labels and edge endpoints are replaced, attributes kept. -/
def relabel_nodes (G : MultiDiGraph) (f : String → String) : MultiDiGraph :=
  ⟨G.nodes.map (fun p => (f p.1, p.2)),
    G.edges.map (fun e => ⟨f e.src, f e.tgt, e.key, e.attrs⟩)⟩

/-- Embedding of `graph_system_from_node_and_edge_lists`
(`src/greengraph/importers/databases/generic.py` lines 333-467).
Faithful points:

* `add_edges_from(list_tuples, weight="flow")` hands networkx 3-tuples
  whose third element is *not* a dict, so networkx stores it as the
  multi-edge *key* and every such edge gets the literal attribute
  `weight = "flow"` (the amount is the key, not an attribute);
  `add_edges_from` also inserts referenced-but-undeclared endpoints as
  bare nodes;
* only the production sub-graph's node count is validated against its
  metadata list (raising `ValueError`); the corresponding extension and
  combined-graph checks are commented out in the source (lines 455-459);
* with `assign_new_uuids`, every node of the composed graph is relabeled
  to a fresh draw of `uuidGen` in node-insertion order. -/
def graph_system_from_node_and_edge_lists (nameSystem : String) (assignNewUuids : Bool)
    (strProdUuid strExtUuid : String) (prodMeta extMeta : List Dict)
    (prodEdges extEdges : List (String × String × Q2)) (uuidGen : ℕ → String) : NEResult :=
  match neNodeLoop "production" nameSystem strProdUuid true ⟨[], []⟩ prodMeta with
  | (_, pm', some e) => ⟨Except.error e, pm', extMeta⟩
  | (A0, pm', Option.none) =>
    match neNodeLoop "extension" nameSystem strExtUuid false ⟨[], []⟩ extMeta with
    | (_, em', some e) => ⟨Except.error e, pm', em'⟩
    | (B0, em', Option.none) =>
      let A := prodEdges.foldl
        (fun g t => addEdgeExplicit g t.1 t.2.1 (PyVal.q t.2.2) [("weight", PyVal.s "flow")]) A0
      let B := extEdges.foldl
        (fun g t => addEdgeExplicit g t.1 t.2.1 (PyVal.q t.2.2) [("weight", PyVal.s "flow")]) B0
      let G := nxCompose A B
      if A.nodes.length ≠ prodMeta.length then
        ⟨Except.error (PyErr.valueError
          "Number of nodes in production graph does not match number of metadata dictionaries."),
          pm', em'⟩
      else if assignNewUuids then
        ⟨Except.ok (relabel_nodes G (fun n =>
          match (nodeIds G).findIdx? (fun m => m = n) with
          | some i => uuidGen i
          | Option.none => n)), pm', em'⟩
      else ⟨Except.ok G, pm', em'⟩

/-- Row scaling as the spec describes it for the technosphere matrix:
divide every row `i` by `p[i]`.  Stated from the specification text, to
be compared against what the source computes. -/
def specScaleRows (M : List (List Q2)) (p : List Q2) : List (List Q2) :=
  (M.zip p).map (fun rp => rp.1.map (fun v => v / rp.2))

/-- Column scaling: divide every entry of column `j` by `p[j]`.  Stated
from the specification text (its biosphere convention), to be compared
against what the source computes. -/
def specScaleCols (M : List (List Q2)) (p : List Q2) : List (List Q2) :=
  M.map (fun row => (row.zip p).map (fun ab => ab.1 / ab.2))

/-- The `production` attribute a node carries in the graph, read as a
plain value (`0` when absent — only used under hypotheses that make the
attribute present and numeric). -/
def specProductionOf (G : MultiDiGraph) (n : String) : Q2 :=
  match dictGet (nodeAttrsD G n) "production" with
  | some (PyVal.q v) => v
  | _ => 0

/-- Insert a label keeping first occurrences (what repeated `add_node` /
`add_edge` calls do to the node list). -/
def specInsertNew (acc : List String) (x : String) : List String :=
  if x ∈ acc then acc else acc ++ [x]

/-- The label under which a metadata dictionary is keyed into a
sub-graph. -/
def specUuidField (d : Dict) (k : String) : String :=
  match dictGet d k with
  | some (PyVal.s s) => s
  | _ => ""

/-- The distinct node labels the production sub-graph of
`graph_system_from_node_and_edge_lists` ends up with: the metadata key
fields in order, then any edge endpoints not yet present. -/
def specProdNodeKeys (prodMeta : List Dict) (uuidKey : String)
    (edges : List (String × String × Q2)) : List String :=
  edges.foldl (fun acc t => specInsertNew (specInsertNew acc t.1) t.2.1)
    (prodMeta.foldl (fun acc d => specInsertNew acc (specUuidField d uuidKey)) [])

/-- Graphs with the same nodes, the same per-node attributes, and the
same multi-edges (as a multiset, insertion order disregarded). -/
def graphEquiv (G1 G2 : MultiDiGraph) : Prop :=
  (∀ n, getNodeAttrs G1 n = getNodeAttrs G2 n) ∧
  (G1.edges : Multiset MEdge) = (G2.edges : Multiset MEdge)

/-- Well-formedness networkx maintains for every graph it hands out:
node labels are unique, edge endpoints are nodes, and `(src, tgt, key)`
identifies a multi-edge uniquely. -/
def WFGraph (G : MultiDiGraph) : Prop :=
  (nodeIds G).Nodup ∧
  (∀ e ∈ G.edges, e.src ∈ nodeIds G ∧ e.tgt ∈ nodeIds G) ∧
  (G.edges.map (fun e => (e.src, e.tgt, e.key))).Nodup

/-- Boolean duplicate-freedom for edge triples. -/
def pairwiseNeTriples : List (String × String × PyVal) → Bool
  | [] => true
  | t :: ts => (! decide (t ∈ ts)) && pairwiseNeTriples ts

/-- Executable well-formedness check mirroring `WFGraph`. -/
def wfCheckB (G : MultiDiGraph) : Bool :=
  nodupB (nodeIds G) &&
  G.edges.all (fun e => (nodeIds G).contains e.src && (nodeIds G).contains e.tgt) &&
  pairwiseNeTriples (G.edges.map (fun e => (e.src, e.tgt, e.key)))

/-- The spec's concrete technosphere matrix with production-node row
order `[A, B, C]`. -/
def exA3 : DataArray2 := ⟨["A", "B", "C"], ["A", "B", "C"], [[0,0,0],[1,0,0],[2,3,0]]⟩

/-- The spec's single biosphere row `[4, 3, 2]`, column labels aligned
to `[A, B, C]`. -/
def exB3 : DataArray2 := ⟨["alpha"], ["A", "B", "C"], [[4,3,2]]⟩

/-- A production vector whose row labels are a permutation (`[B, A, C]`)
of `exB3`'s column labels. -/
def exXperm : DataArray1 := ⟨["B", "A", "C"], [100, 100, 500]⟩

/-- An inventory matrix whose row labels `[s2, s1]` are a permutation of
`exQm`'s column labels. -/
def exGm : DataArray2 := ⟨["s2", "s1"], ["grp"], [[3], [4]]⟩

/-- A characterization matrix with column labels `[s1, s2]`. -/
def exQm : DataArray2 := ⟨["imp"], ["s1", "s2"], [[10, 100]]⟩

/-- A composed graph with two production nodes of distinct `production`
attributes (1 and 2), one extension node and one indicator node. -/
def exGraph : MultiDiGraph :=
  ⟨[("n1", [("type", PyVal.s "production"), ("production", PyVal.q 1)]),
    ("n2", [("type", PyVal.s "production"), ("production", PyVal.q 2)]),
    ("e1", [("type", PyVal.s "extension")]),
    ("q1", [("type", PyVal.s "indicator")])],
   [⟨"n1", "n2", PyVal.q 0, [("flow", PyVal.q 3)]⟩,
    ⟨"n2", "n1", PyVal.q 0, [("flow", PyVal.q 5)]⟩,
    ⟨"e1", "n1", PyVal.q 0, [("flow", PyVal.q 4)]⟩,
    ⟨"q1", "e1", PyVal.q 0, [("flow", PyVal.q 9)]⟩]⟩

/-- What matrix extraction returns on `exGraph` (default sorts). -/
def exGenOut : GenMatrices :=
  { Amat := ⟨["n1", "n2"], ["n1", "n2"], [[0, 3], [5, 0]]⟩
    AnormMat := ⟨["n1", "n2"], ["n1", "n2"], [[0, 3/2], [5, 0]]⟩
    Bmat := ⟨["e1"], ["n1", "n2"], [[4, 0]]⟩
    BnormMat := ⟨["e1"], ["n1", "n2"], [[4, 0]]⟩
    Qmat := ⟨["q1"], ["e1"], [[9]]⟩ }

/-- Production metadata for the 1-node round-trip system (uuid field
`id`). -/
def exProdMeta : List Dict :=
  [[("name", PyVal.s "prod"), ("unit", PyVal.s "kg"), ("id", PyVal.s "p0")]]

/-- Extension metadata for the 1-node round-trip system. -/
def exExtMeta : List Dict :=
  [[("name", PyVal.s "co2"), ("unit", PyVal.s "kg"), ("id", PyVal.s "e0")]]

/-- Indicator metadata for the 1-node round-trip system. -/
def exIndMeta : List Dict :=
  [[("name", PyVal.s "gwp"), ("unit", PyVal.s "pt"), ("id", PyVal.s "i0")]]

/-- Round-trip input: `P = [[0]]`, `B = [[5]]`, `Q = [[7]]`. -/
def exC2Inp : IOInputs := ⟨[[0]], [[5]], some [[7]], exProdMeta, exExtMeta, some exIndMeta⟩

/-- Building the graph from `exC2Inp` under the `I-A` convention with
the metadata-supplied uuids. -/
def exC2Run : IOResult :=
  graph_system_from_input_output_matrices "sys" false "id" "id" "id" "I-A"
    (fun _ => "unused") exC2Inp

/-- The full round trip: build the graph from `exC2Inp`, then extract
the technosphere, biosphere and characterization values with the same
(default) sort attributes. -/
def exC2Pipeline : Except PyErr (List (List Q2) × List (List Q2) × List (List Q2)) :=
  match exC2Run.result with
  | Except.ok G => (generateMatricesFromGraph G Option.none Option.none Option.none).map
      (fun m => (m.Amat.data, m.Bmat.data, m.Qmat.data))
  | Except.error e => Except.error e

/-- Two-node production metadata (uuid field `id`). -/
def exProdMeta2 : List Dict :=
  [[("name", PyVal.s "a"), ("unit", PyVal.s "kg"), ("id", PyVal.s "p0")],
   [("name", PyVal.s "b"), ("unit", PyVal.s "kg"), ("id", PyVal.s "p1")]]

/-- Convention-`A` input with nonzero diagonal `[3, 4]`. -/
def exC4Inp : IOInputs :=
  ⟨[[3, 1], [2, 4]], [[5, 6]], Option.none, exProdMeta2, exExtMeta, Option.none⟩

/-- Calling the importer on `exC4Inp` with `matrix_convention="A"`. -/
def exC4Run : IOResult :=
  graph_system_from_input_output_matrices "sys" false "id" "id" "id" "A"
    (fun _ => "unused") exC4Inp

/-- One production node named `A`. -/
def exPm1 : List Dict := [[("name", PyVal.s "A"), ("unit", PyVal.s "kg")]]

/-- Two extension metadata records sharing the identity key `alpha`. -/
def exEmDup : List Dict :=
  [[("name", PyVal.s "alpha"), ("unit", PyVal.s "kg")],
   [("name", PyVal.s "alpha"), ("unit", PyVal.s "g")]]

/-- Two production metadata records sharing the identity key `A`. -/
def exPmDup : List Dict :=
  [[("name", PyVal.s "A"), ("unit", PyVal.s "kg")],
   [("name", PyVal.s "A"), ("unit", PyVal.s "g")]]

/-- One extension node named `alpha`. -/
def exEm1 : List Dict := [[("name", PyVal.s "alpha"), ("unit", PyVal.s "kg")]]

/-- Edge-list build whose extension metadata records collapse onto one
node. -/
def exC7ExtRun : NEResult :=
  graph_system_from_node_and_edge_lists "sys" false "name" "name" exPm1 exEmDup [] []
    (fun _ => "unused")

/-- Edge-list build whose production metadata records collapse onto one
node. -/
def exC7ProdRun : NEResult :=
  graph_system_from_node_and_edge_lists "sys" false "name" "name" exPmDup exEm1 [] []
    (fun _ => "unused")

/-- A small well-formed graph. -/
def exCG1 : MultiDiGraph :=
  ⟨[("a", [("type", PyVal.s "production")])],
   [⟨"a", "a", PyVal.q 0, [("flow", PyVal.q 2)]⟩]⟩

/-- A second well-formed graph, node-disjoint from `exCG1`. -/
def exCG2 : MultiDiGraph :=
  ⟨[("b", []), ("c", [("unit", PyVal.s "kg")])],
   [⟨"b", "c", PyVal.q 0, []⟩, ⟨"b", "c", PyVal.q 1, [("flow", PyVal.q 7)]⟩]⟩

/-- Packs a production/extension system with an optional indicator pair
into the `IOInputs` record consumed by
`graph_system_from_input_output_matrices`: the indicator array and its
metadata list are supplied together or not at all. -/
def ioInputsOf (P E : List (List Q2)) (pm em : List Dict)
    (ind : Option (List (List Q2) × List Dict)) : IOInputs :=
  ⟨P, E, ind.map (fun p => p.1), pm, em, ind.map (fun p => p.2)⟩

/-- C1: for the 3x3 technosphere matrix `[[0,0,0],[1,0,0],[2,3,0]]` with
production-node row order `[A, B, C]` and demand `{A: 100}`,
`calculate_production_vector` returns `x = [100, 100, 500]`; and for the
biosphere row `[4, 3, 2]` with column labels equal to `x`'s row labels,
`calculate_inventory_vector` applied to that `x` returns the inventory
value `1700`. -/
theorem C1_solve_concrete :
    calculate_production_vector exA3 [("A", 100)]
      = Except.ok ⟨["A", "B", "C"], [100, 100, 500]⟩ ∧
    calculate_inventory_vector ⟨["A", "B", "C"], [100, 100, 500]⟩ exB3
      = Except.ok ⟨["alpha"], [1700]⟩ := by
  decide

/-- C5, counterexample: `calculate_impact_matrix` does not raise on a
coordinate-label mismatch.  `exQm`'s column labels `[s1, s2]` differ
from `exGm`'s row labels `[s2, s1]` (a permutation), yet the function
returns the numeric result `[[430]]` instead of raising. -/
theorem C5_counterexample :
    exQm.cols ≠ exGm.rows ∧
    calculate_impact_matrix exGm exQm = Except.ok ⟨["imp"], ["grp"], [[430]]⟩ := by
  decide

/-- C3, counterexample: on `exGraph` (production attributes 1 and 2) the
normalized technosphere matrix returned by the extraction is *not* the
flow matrix with row `i` divided by production of row node `i`: the
source divides along the trailing (column) axis instead. -/
theorem C3_counterexample :
    generateMatricesFromGraph exGraph Option.none Option.none Option.none
      = Except.ok exGenOut ∧
    exGenOut.AnormMat.data
      ≠ specScaleRows exGenOut.Amat.data (exGenOut.Amat.rows.map (specProductionOf exGraph)) := by
  decide

/-- C9: supplying `B_sort_attributes` (or `Q_sort_attributes`) does not
order the extension (indicator) nodes by those attributes — the sort
lambdas of `conversion.py` lines 61 and 92 reference the undefined name
`sort_keys`, so the call raises `NameError` as soon as the node list is
nonempty. -/
theorem C9_sort_keys_name_error :
    generateMatricesFromGraph exGraph Option.none (some ["name"]) Option.none
      = Except.error (PyErr.nameError "sort_keys") ∧
    generateMatricesFromGraph exGraph Option.none Option.none (some ["name"])
      = Except.error (PyErr.nameError "sort_keys") := by
  decide

/-- C2: the matrix → graph → matrix round trip reproduces the
technosphere (`[[0]]`) and biosphere (`[[5]]`) values but turns the
characterization value `7` into `1`: the importer stores indicator edge
amounts under `weight` (`generic.py` line 297) while the extraction
reads `flow` (`conversion.py` line 104) and defaults a missing weight
to `1`. -/
theorem C2_roundtrip_failure :
    exC2Inp.arrayIndicator = some [[7]] ∧
    exC2Pipeline = Except.ok ([[0]], [[5]], [[1]]) ∧ (1 : Q2) ≠ 7 := by
  decide

/-- C4: with `matrix_convention="A"` construction never succeeds: the
importer zeroes the caller's diagonal in place (line 188), then raises
`UnboundLocalError` at `A = np.abs(A)` (line 189) — so no graph exists,
no node ever receives a `production` attribute, and the caller's array
has lost its diagonal (`[3, 4]` here). -/
theorem C4_convention_A_failure :
    exC4Run.result = Except.error (PyErr.nameError "A") ∧
    exC4Run.final.arrayProduction = [[0, 1], [2, 0]] ∧
    exC4Run.final.prodMeta = exC4Inp.prodMeta := by
  decide

/-- C7, counterexample: two extension metadata records with the same
identity key collapse onto one node, yet
`graph_system_from_node_and_edge_lists` returns a graph (with one
extension node for two metadata records) instead of raising — the
extension cardinality check is commented out in the source. -/
theorem C7_counterexample :
    exEmDup.length = 2 ∧
    exC7ExtRun.result.map (fun G => (nodesOfType G "extension").length) = Except.ok 1 := by
  decide

/-- C10, counterexample: for a `matrix_convention="A"` call the claim
fails — the caller's array is mutated in place (diagonal zeroed) but
the metadata dictionaries never receive `uuid` (or any other key): the
`UnboundLocalError` at line 189 fires before the metadata loops run. -/
theorem C10_counterexample :
    dictGet (exC4Run.final.prodMeta.headD []) "uuid" = Option.none ∧
    exC4Run.final.arrayProduction ≠ exC4Inp.arrayProduction ∧
    exC4Run.result.isOk = false := by
  decide

theorem buildDemand_first_missing (rows : List String) :
    ∀ (demand : List (String × Q2)) (f0 : List Q2),
      (∃ p ∈ demand, p.1 ∉ rows) →
      ∃ node, node ∉ rows ∧
        demand.foldlM
          (fun f p =>
            if rows.contains p.1 then Except.ok (maskAssign rows f p.1 p.2)
            else Except.error (PyErr.valueError
              ("Node " ++ p.1 ++ " not present in technosphere matrix.")))
          f0
        = Except.error (PyErr.valueError
            ("Node " ++ node ++ " not present in technosphere matrix.")) := by
  intro demand
  induction demand with
  | nil => intro f0 h; simp at h
  | cons p rest ih =>
    intro f0 h
    by_cases hc : rows.contains p.1
    · have hmem : p.1 ∈ rows := by
        have := List.elem_iff.mp hc
        exact this
      obtain ⟨q, hq, hqr⟩ := h
      rcases List.mem_cons.mp hq with hq1 | hq2
      · subst hq1; exact absurd hmem hqr
      · obtain ⟨node, hn1, hn2⟩ := ih (maskAssign rows f0 p.1 p.2) ⟨q, hq2, hqr⟩
        refine ⟨node, hn1, ?_⟩
        rw [List.foldlM_cons, if_pos hc]
        simpa using hn2
    · refine ⟨p.1, ?_, ?_⟩
      · intro hmem
        exact hc (List.elem_iff.mpr hmem)
      · rw [List.foldlM_cons, if_neg hc]
        rfl

/-- C6: whenever the demand dictionary contains a key that is not among
the technosphere matrix's row labels, `calculate_production_vector`
raises at the first such key and returns no production vector.  The
exception is Python `ValueError` with message
`Node ... not present in technosphere matrix.` — the raise site the
specification's error taxonomy names `UnknownNodeError`. -/
theorem C6_unknown_demand_key (A : DataArray2) (demand : List (String × Q2))
    (h : ∃ p ∈ demand, p.1 ∉ A.rows) :
    ∃ node, node ∉ A.rows ∧
      calculate_production_vector A demand
        = Except.error (PyErr.valueError
            ("Node " ++ node ++ " not present in technosphere matrix.")) := by
  obtain ⟨node, hn1, hn2⟩ :=
    buildDemand_first_missing A.rows demand (A.rows.map (fun _ => (0 : Q2))) h
  refine ⟨node, hn1, ?_⟩
  unfold calculate_production_vector buildDemandVector
  rw [hn2]

/-- C6, witness: demand key `Z` is absent from `exA3`'s rows and the
call fails with the unknown-node `ValueError`. -/
theorem C6_unknown_demand_key_witness :
    (∃ p ∈ ([("Z", (5 : Q2))] : List (String × Q2)), p.1 ∉ exA3.rows) ∧
    ∃ node, node ∉ exA3.rows ∧
      calculate_production_vector exA3 [("Z", 5)]
        = Except.error (PyErr.valueError
            ("Node " ++ node ++ " not present in technosphere matrix.")) :=
  ⟨by decide, C6_unknown_demand_key exA3 [("Z", 5)] (by decide)⟩

/-- C5, amended: `calculate_inventory_vector` raises `ValueError`
(message `Columns of B and rows of x do not align!` — the raise site the
spec's taxonomy names `AlignmentError`) whenever `B`'s column labels
differ from `x`'s row labels in set or order; `calculate_impact_matrix`,
however, performs no label check at all: whenever the raw shapes
conform it returns a numeric result, whatever the labels. -/
theorem C5_alignment_amended :
    (∀ (x : DataArray1) (B : DataArray2), B.cols ≠ x.rows →
      calculate_inventory_vector x B
        = Except.error (PyErr.valueError "Columns of B and rows of x do not align!")) ∧
    (∀ (gm Q : DataArray2), (Q.data.headD []).length = gm.data.length →
      ∃ h, calculate_impact_matrix gm Q = Except.ok h) := by
  constructor
  · intro x B h
    unfold calculate_inventory_vector
    rw [if_neg h]
  · intro gm Q h
    refine ⟨⟨Q.rows, gm.cols,
      Q.data.map (fun row =>
        (List.range (gm.data.headD []).length).map
          (fun k => dotQ row (gm.data.map (fun r => r.getD k 0))))⟩, ?_⟩
    unfold calculate_impact_matrix npMatMul
    rw [if_pos h]

/-- C5, witness: a permuted `B`/`x` pair raises the alignment
`ValueError`, and a label-mismatched but shape-conforming
`calculate_impact_matrix` call returns a numeric result. -/
theorem C5_alignment_amended_witness :
    (exB3.cols ≠ exXperm.rows ∧
      calculate_inventory_vector exXperm exB3
        = Except.error (PyErr.valueError "Columns of B and rows of x do not align!")) ∧
    ((exQm.data.headD []).length = exGm.data.length ∧
      ∃ h, calculate_impact_matrix exGm exQm = Except.ok h) :=
  ⟨⟨by decide, C5_alignment_amended.1 exXperm exB3 (by decide)⟩,
   ⟨by decide, C5_alignment_amended.2 exGm exQm (by decide)⟩⟩

theorem getProductionVal_ok {G : MultiDiGraph} {n : String} {v : Q2}
    (h : getProductionVal G n = Except.ok v) : specProductionOf G n = v := by
  unfold getProductionVal at h
  unfold specProductionOf
  split at h
  · cases h; rename_i heq; rw [heq]
  · cases h
  · cases h

theorem mapExcept_production {G : MultiDiGraph} :
    ∀ {ns : List String} {vs : List Q2},
      mapExcept (fun n => getProductionVal G n) ns = Except.ok vs →
      vs = ns.map (specProductionOf G) := by
  intro ns
  induction ns with
  | nil => intro vs h; cases h; rfl
  | cons n rest ih =>
    intro vs h
    unfold mapExcept at h
    split at h
    · cases h
    · rename_i v hv
      split at h
      · cases h
      · rename_i ys hys
        cases h
        rw [List.map_cons, getProductionVal_ok hv, ih hys]

/-- C3, amended: in every successful extraction the normalized
technosphere matrix is the extracted flow matrix with every *column*
`j` divided by the production attribute of column node `j` (numpy
trailing-axis broadcasting), and the normalized biosphere matrix is
likewise column-scaled by the production of the production (column)
nodes — the biosphere half as the claim states it, the technosphere
half column- rather than row-scaled. -/
theorem C3_normalization_amended (G : MultiDiGraph) (As Bs Qs : Option (List String))
    (m : GenMatrices) (h : generateMatricesFromGraph G As Bs Qs = Except.ok m) :
    m.AnormMat.data = specScaleCols m.Amat.data (m.Amat.cols.map (specProductionOf G)) ∧
    m.BnormMat.data = specScaleCols m.Bmat.data (m.Bmat.cols.map (specProductionOf G)) := by
  unfold generateMatricesFromGraph at h
  dsimp only at h
  cases hA : biadjacency G (sortedNodesA G As) (sortedNodesA G As) "flow" with
  | error e => rw [hA] at h; simp [exBind] at h
  | ok Adata =>
    rw [hA] at h
    simp only [exBind] at h
    cases hprod : mapExcept (fun n => getProductionVal G n) (sortedNodesA G As) with
    | error e => rw [hprod] at h; simp [exBind] at h
    | ok prodVals =>
      rw [hprod] at h
      simp only [exBind] at h
      cases hB : sortedNodesBuggy G "extension" Bs with
      | error e => rw [hB] at h; simp [exBind] at h
      | ok listB =>
        rw [hB] at h
        simp only [exBind] at h
        cases hBd : biadjacency G listB (sortedNodesA G As) "flow" with
        | error e => rw [hBd] at h; simp [exBind] at h
        | ok Bdata =>
          rw [hBd] at h
          simp only [exBind] at h
          cases hQ : sortedNodesBuggy G "indicator" Qs with
          | error e => rw [hQ] at h; simp [exBind] at h
          | ok listQ =>
            rw [hQ] at h
            simp only [exBind] at h
            cases hQd : biadjacency G listQ listB "flow" with
            | error e => rw [hQd] at h; simp [exBind] at h
            | ok Qdata =>
              rw [hQd] at h
              simp only [exBind] at h
              cases h
              have hv := mapExcept_production hprod
              subst hv
              exact ⟨rfl, rfl⟩

/-- C3, amended, witness: instantiated on `exGraph`, where the
extraction succeeds with productions `[1, 2]`. -/
theorem C3_normalization_amended_witness :
    exGenOut.AnormMat.data
      = specScaleCols exGenOut.Amat.data (exGenOut.Amat.cols.map (specProductionOf exGraph)) ∧
    exGenOut.BnormMat.data
      = specScaleCols exGenOut.Bmat.data (exGenOut.Bmat.cols.map (specProductionOf exGraph)) :=
  C3_normalization_amended exGraph Option.none Option.none Option.none exGenOut (by decide)

theorem nodupB_nodup : ∀ {l : List String}, nodupB l = true → l.Nodup := by
  intro l
  induction l with
  | nil => intro _; exact List.nodup_nil
  | cons x xs ih =>
    intro h
    unfold nodupB at h
    rw [Bool.and_eq_true] at h
    refine List.nodup_cons.mpr ⟨?_, ih h.2⟩
    intro hmem
    rw [Bool.not_eq_true', ← Bool.not_eq_true] at h
    exact h.1 (List.elem_iff.mpr hmem)

theorem pairwiseNeTriples_nodup :
    ∀ {l : List (String × String × PyVal)}, pairwiseNeTriples l = true → l.Nodup := by
  intro l
  induction l with
  | nil => intro _; exact List.nodup_nil
  | cons x xs ih =>
    intro h
    unfold pairwiseNeTriples at h
    rw [Bool.and_eq_true] at h
    refine List.nodup_cons.mpr ⟨?_, ih h.2⟩
    intro hmem
    have := h.1
    simp [hmem] at this

theorem WFGraph_of_checkB {G : MultiDiGraph} (h : wfCheckB G = true) : WFGraph G := by
  unfold wfCheckB at h
  rw [Bool.and_eq_true, Bool.and_eq_true] at h
  obtain ⟨⟨h1, h2⟩, h3⟩ := h
  refine ⟨nodupB_nodup h1, ?_, pairwiseNeTriples_nodup h3⟩
  intro e he
  rw [List.all_eq_true] at h2
  have := h2 e he
  rw [Bool.and_eq_true] at this
  exact ⟨List.elem_iff.mp this.1, List.elem_iff.mp this.2⟩

theorem updateNodeAttrs_append (l : List (String × Dict)) (n : String) (attrs : Dict)
    (h : n ∉ l.map Prod.fst) :
    updateNodeAttrs l n attrs = l ++ [(n, attrs)] := by
  induction l with
  | nil => rfl
  | cons p rest ih =>
    rw [List.map_cons, List.mem_cons] at h
    push_neg at h
    cases p with
    | mk m d =>
      unfold updateNodeAttrs
      rw [if_neg (fun hc => h.1 hc.symm), ih h.2, List.cons_append]

theorem addNodesFromData_nodes (ns : List (String × Dict)) :
    ∀ (G : MultiDiGraph), (∀ p ∈ ns, p.1 ∉ nodeIds G) → (ns.map Prod.fst).Nodup →
      addNodesFromData G ns = ⟨G.nodes ++ ns, G.edges⟩ := by
  induction ns with
  | nil =>
    intro G _ _
    unfold addNodesFromData
    rw [List.foldl_nil, List.append_nil]
  | cons p rest ih =>
    intro G hmem hnod
    unfold addNodesFromData at ih ⊢
    rw [List.foldl_cons]
    have hstep : addNodeWith G p.1 p.2 = ⟨G.nodes ++ [p], G.edges⟩ := by
      unfold addNodeWith
      rw [updateNodeAttrs_append G.nodes p.1 p.2 (hmem p (List.mem_cons_self p rest))]
    rw [hstep]
    rw [List.map_cons, List.nodup_cons] at hnod
    have hmem' : ∀ q ∈ rest, q.1 ∉ nodeIds (⟨G.nodes ++ [p], G.edges⟩ : MultiDiGraph) := by
      intro q hq hin
      unfold nodeIds at hin
      rw [List.map_append, List.mem_append] at hin
      rcases hin with hin1 | hin2
      · exact hmem q (List.mem_cons_of_mem p hq) hin1
      · rw [List.map_singleton, List.mem_singleton] at hin2
        exact hnod.1 (hin2 ▸ List.mem_map_of_mem Prod.fst hq)
    rw [ih ⟨G.nodes ++ [p], G.edges⟩ hmem' hnod.2]
    rw [List.append_assoc, List.singleton_append]

theorem hasEdgeKey_false_of_not_mem {G : MultiDiGraph} {u v : String} {k : PyVal}
    (h : (u, v, k) ∉ G.edges.map (fun e => (e.src, e.tgt, e.key))) :
    hasEdgeKey G u v k = false := by
  unfold hasEdgeKey
  rw [List.any_eq_false]
  intro e he
  intro hc
  rw [Bool.and_eq_true, Bool.and_eq_true, decide_eq_true_eq, decide_eq_true_eq,
    decide_eq_true_eq] at hc
  exact h (List.mem_map.mpr ⟨e, he, by rw [hc.1.1, hc.1.2, hc.2]⟩)

theorem addNodeIfAbsent_mem {G : MultiDiGraph} {n : String} (h : n ∈ nodeIds G) :
    addNodeIfAbsent G n = G := by
  unfold addNodeIfAbsent
  rw [if_pos (List.elem_iff.mpr h)]

theorem addEdgeExplicit_fresh {G : MultiDiGraph} {u v : String} {k : PyVal} {d : Dict}
    (hu : u ∈ nodeIds G) (hv : v ∈ nodeIds G)
    (hk : (u, v, k) ∉ G.edges.map (fun e => (e.src, e.tgt, e.key))) :
    addEdgeExplicit G u v k d = ⟨G.nodes, G.edges ++ [⟨u, v, k, d⟩]⟩ := by
  unfold addEdgeExplicit
  rw [addNodeIfAbsent_mem hu, addNodeIfAbsent_mem hv,
    if_neg (by rw [hasEdgeKey_false_of_not_mem hk]; exact fun hc => Bool.noConfusion hc)]

theorem addEdgesFold (es : List MEdge) :
    ∀ (G : MultiDiGraph),
      (∀ e ∈ es, e.src ∈ nodeIds G ∧ e.tgt ∈ nodeIds G) →
      ((G.edges ++ es).map (fun e => (e.src, e.tgt, e.key))).Nodup →
      es.foldl (fun acc e => addEdgeExplicit acc e.src e.tgt e.key e.attrs) G
        = ⟨G.nodes, G.edges ++ es⟩ := by
  induction es with
  | nil =>
    intro G _ _
    rw [List.foldl_nil, List.append_nil]
  | cons e rest ih =>
    intro G hends htrip
    rw [List.foldl_cons]
    have hne : (e.src, e.tgt, e.key) ∉ G.edges.map (fun e => (e.src, e.tgt, e.key)) := by
      intro hc
      rw [List.map_append, List.nodup_append] at htrip
      exact htrip.2.2 hc (by
        rw [List.map_cons]
        exact List.mem_cons_self _ _)
    have hstep := addEdgeExplicit_fresh (hends e (List.mem_cons_self e rest)).1
      (hends e (List.mem_cons_self e rest)).2 hne (d := e.attrs)
    have hee : (⟨e.src, e.tgt, e.key, e.attrs⟩ : MEdge) = e := rfl
    rw [hee] at hstep
    rw [hstep]
    have hends' : ∀ f ∈ rest, f.src ∈ nodeIds (⟨G.nodes, G.edges ++ [e]⟩ : MultiDiGraph)
        ∧ f.tgt ∈ nodeIds (⟨G.nodes, G.edges ++ [e]⟩ : MultiDiGraph) := by
      intro f hf
      exact hends f (List.mem_cons_of_mem e hf)
    have htrip' : (((⟨G.nodes, G.edges ++ [e]⟩ : MultiDiGraph).edges ++ rest).map
        (fun e => (e.src, e.tgt, e.key))).Nodup := by
      show (((G.edges ++ [e]) ++ rest).map (fun e => (e.src, e.tgt, e.key))).Nodup
      rw [List.append_assoc, List.singleton_append]
      exact htrip
    rw [ih ⟨G.nodes, G.edges ++ [e]⟩ hends' htrip']
    rw [List.append_assoc, List.singleton_append]

theorem nxCompose_disjoint (G H : MultiDiGraph) (hG : WFGraph G) (hH : WFGraph H)
    (hdis : ∀ n ∈ nodeIds G, n ∉ nodeIds H) :
    nxCompose G H = ⟨G.nodes ++ H.nodes, G.edges ++ H.edges⟩ := by
  obtain ⟨hGn, hGe, hGt⟩ := hG
  obtain ⟨hHn, hHe, hHt⟩ := hH
  unfold nxCompose
  dsimp only
  have s1 : addNodesFromData ⟨[], []⟩ G.nodes = ⟨G.nodes, []⟩ := by
    rw [addNodesFromData_nodes G.nodes ⟨[], []⟩
      (by intro p _ hc; simp [nodeIds] at hc) hGn]
    rw [List.nil_append]
  rw [s1]
  have s2 : addNodesFromData ⟨G.nodes, ([] : List MEdge)⟩ H.nodes
      = ⟨G.nodes ++ H.nodes, []⟩ := by
    exact addNodesFromData_nodes H.nodes ⟨G.nodes, []⟩
      (fun p hp hc => hdis p.1 hc (List.mem_map_of_mem Prod.fst hp)) hHn
  rw [s2]
  have hdisE : ∀ t ∈ G.edges.map (fun e => (e.src, e.tgt, e.key)),
      t ∉ H.edges.map (fun e => (e.src, e.tgt, e.key)) := by
    intro t htG htH
    obtain ⟨e1, he1, he1t⟩ := List.mem_map.mp htG
    obtain ⟨e2, he2, he2t⟩ := List.mem_map.mp htH
    have hsame : e1.src = e2.src := by
      have := he1t.trans he2t.symm
      exact congrArg Prod.fst this
    exact hdis e1.src (hGe e1 he1).1 (hsame ▸ (hHe e2 he2).1)
  have s3 : G.edges.foldl (fun acc e => addEdgeExplicit acc e.src e.tgt e.key e.attrs)
      ⟨G.nodes ++ H.nodes, ([] : List MEdge)⟩ = ⟨G.nodes ++ H.nodes, G.edges⟩ := by
    have := addEdgesFold G.edges ⟨G.nodes ++ H.nodes, []⟩
      (by
        intro e he
        constructor
        · show e.src ∈ (G.nodes ++ H.nodes).map Prod.fst
          rw [List.map_append]
          exact List.mem_append_left _ (hGe e he).1
        · show e.tgt ∈ (G.nodes ++ H.nodes).map Prod.fst
          rw [List.map_append]
          exact List.mem_append_left _ (hGe e he).2)
      (by rw [List.nil_append]; exact hGt)
    rw [this, List.nil_append]
  rw [s3]
  exact addEdgesFold H.edges ⟨G.nodes ++ H.nodes, G.edges⟩
    (by
      intro e he
      constructor
      · show e.src ∈ (G.nodes ++ H.nodes).map Prod.fst
        rw [List.map_append]
        exact List.mem_append_right _ (hHe e he).1
      · show e.tgt ∈ (G.nodes ++ H.nodes).map Prod.fst
        rw [List.map_append]
        exact List.mem_append_right _ (hHe e he).2)
    (by
      rw [List.map_append, List.nodup_append]
      exact ⟨hGt, hHt, hdisE⟩)

theorem find?_eq_none_of_not_mem {l : List (String × Dict)} {n : String}
    (h : n ∉ l.map Prod.fst) :
    l.find? (fun p => p.1 = n) = Option.none := by
  rw [List.find?_eq_none]
  intro p hp hc
  rw [decide_eq_true_eq] at hc
  exact h (hc ▸ List.mem_map_of_mem Prod.fst hp)

/-- C8: composing two node-disjoint well-formed sub-graphs is
commutative in effect — `nx.compose(G, H)` and `nx.compose(H, G)` have
the same nodes, the same attributes on every node, and the same
multi-edges, so the merged graph does not depend on merge order. -/
theorem C8_compose_commutes (G H : MultiDiGraph) (hG : WFGraph G) (hH : WFGraph H)
    (hdis : ∀ n ∈ nodeIds G, n ∉ nodeIds H) :
    graphEquiv (nxCompose G H) (nxCompose H G) := by
  have hdis' : ∀ n ∈ nodeIds H, n ∉ nodeIds G := fun n hn hg => hdis n hg hn
  rw [nxCompose_disjoint G H hG hH hdis, nxCompose_disjoint H G hH hG hdis']
  constructor
  · intro n
    unfold getNodeAttrs
    show ((G.nodes ++ H.nodes).find? (fun p => p.1 = n)).map _
      = ((H.nodes ++ G.nodes).find? (fun p => p.1 = n)).map _
    by_cases hg : n ∈ G.nodes.map Prod.fst
    · have hh : (H.nodes.find? (fun p => p.1 = n)) = Option.none :=
        find?_eq_none_of_not_mem (hdis n hg)
      rw [List.find?_append, List.find?_append, hh]
      cases hf : G.nodes.find? (fun p => p.1 = n) with
      | none => rfl
      | some p => simp
    · have hgn : (G.nodes.find? (fun p => p.1 = n)) = Option.none :=
        find?_eq_none_of_not_mem hg
      rw [List.find?_append, List.find?_append, hgn]
      simp
  · show ((G.edges ++ H.edges : List MEdge) : Multiset MEdge)
      = ((H.edges ++ G.edges : List MEdge) : Multiset MEdge)
    exact Quotient.sound List.perm_append_comm

/-- C8, witness: two concrete node-disjoint well-formed graphs compose
to equivalent graphs in either order. -/
theorem C8_compose_commutes_witness : graphEquiv (nxCompose exCG1 exCG2) (nxCompose exCG2 exCG1) :=
  C8_compose_commutes exCG1 exCG2 (WFGraph_of_checkB (by decide)) (WFGraph_of_checkB (by decide))
    (by decide)

theorem dictGet_dictSet_self (d : Dict) (k : String) (v : PyVal) :
    dictGet (dictSet d k v) k = some v := by
  induction d with
  | nil =>
    show dictGet [(k, v)] k = some v
    unfold dictGet
    rw [List.find?_cons_of_pos _ (by exact decide_eq_true rfl)]
    rfl
  | cons p rest ih =>
    cases p with
    | mk k' v' =>
      unfold dictSet
      by_cases hk : k' = k
      · rw [if_pos hk]
        unfold dictGet
        rw [List.find?_cons_of_pos _ (by exact decide_eq_true hk)]
        rfl
      · rw [if_neg hk]
        unfold dictGet
        rw [List.find?_cons_of_neg _ (by simpa using hk)]
        exact ih

theorem dictGet_dictSet_ne (d : Dict) (k k2 : String) (v : PyVal) (h : k2 ≠ k) :
    dictGet (dictSet d k v) k2 = dictGet d k2 := by
  induction d with
  | nil =>
    show dictGet [(k, v)] k2 = dictGet [] k2
    unfold dictGet
    rw [List.find?_cons_of_neg _ (by simpa using fun hc => h hc.symm)]
  | cons p rest ih =>
    cases p with
    | mk k' v' =>
      unfold dictSet
      by_cases hk : k' = k
      · rw [if_pos hk]
        unfold dictGet
        by_cases h2 : k' = k2
        · exact absurd (h2.symm.trans hk) h
        · rw [List.find?_cons_of_neg _ (by simpa using h2),
            List.find?_cons_of_neg _ (by simpa using h2)]
      · rw [if_neg hk]
        unfold dictGet
        by_cases h2 : k' = k2
        · rw [List.find?_cons_of_pos _ (by simpa using h2),
            List.find?_cons_of_pos _ (by simpa using h2)]
        · rw [List.find?_cons_of_neg _ (by simpa using h2),
            List.find?_cons_of_neg _ (by simpa using h2)]
          exact ih

theorem map_fst_updateNodeAttrs (l : List (String × Dict)) (n : String) (attrs : Dict) :
    (updateNodeAttrs l n attrs).map Prod.fst = specInsertNew (l.map Prod.fst) n := by
  induction l with
  | nil =>
    unfold updateNodeAttrs specInsertNew
    simp
  | cons p rest ih =>
    cases p with
    | mk m d =>
      unfold updateNodeAttrs
      by_cases hm : m = n
      · rw [if_pos hm]
        unfold specInsertNew
        rw [if_pos (by rw [List.map_cons]; exact hm ▸ List.mem_cons_self m _)]
        rfl
      · rw [if_neg hm, List.map_cons, List.map_cons, ih]
        unfold specInsertNew
        by_cases hmem : n ∈ rest.map Prod.fst
        · rw [if_pos hmem, if_pos (List.mem_cons_of_mem _ hmem)]
        · rw [if_neg hmem,
            if_neg (by
              rw [List.mem_cons]
              rintro (hc | hc)
              · exact hm hc.symm
              · exact hmem hc),
            List.cons_append]

theorem nodeIds_addNodeWith (G : MultiDiGraph) (n : String) (attrs : Dict) :
    nodeIds (addNodeWith G n attrs) = specInsertNew (nodeIds G) n := by
  unfold nodeIds addNodeWith
  exact map_fst_updateNodeAttrs G.nodes n attrs

theorem edges_addNodeWith (G : MultiDiGraph) (n : String) (attrs : Dict) :
    (addNodeWith G n attrs).edges = G.edges := rfl

theorem nodeIds_addNodeIfAbsent (G : MultiDiGraph) (n : String) :
    nodeIds (addNodeIfAbsent G n) = specInsertNew (nodeIds G) n := by
  unfold addNodeIfAbsent specInsertNew
  by_cases hm : n ∈ nodeIds G
  · rw [if_pos (List.elem_iff.mpr hm), if_pos hm]
  · rw [if_neg (fun hc => hm (List.elem_iff.mp hc)), if_neg hm]
    unfold nodeIds
    rw [List.map_append]
    rfl

theorem nodeIds_addEdgeExplicit (G : MultiDiGraph) (u v : String) (k : PyVal) (d : Dict) :
    nodeIds (addEdgeExplicit G u v k d) = specInsertNew (specInsertNew (nodeIds G) u) v := by
  unfold addEdgeExplicit
  by_cases hk : hasEdgeKey (addNodeIfAbsent (addNodeIfAbsent G u) v) u v k
  · rw [if_pos hk]
    show nodeIds (addNodeIfAbsent (addNodeIfAbsent G u) v) = _
    rw [nodeIds_addNodeIfAbsent, nodeIds_addNodeIfAbsent]
  · rw [if_neg hk]
    show nodeIds (addNodeIfAbsent (addNodeIfAbsent G u) v) = _
    rw [nodeIds_addNodeIfAbsent, nodeIds_addNodeIfAbsent]

theorem dictGet_neMutateDict_ne (typeTag nameSystem : String) (prodDefault : Bool) (d : Dict)
    (k : String) (hk1 : k ≠ "type") (hk2 : k ≠ "system") (hk3 : k ≠ "production") :
    dictGet (neMutateDict typeTag nameSystem prodDefault d) k = dictGet d k := by
  unfold neMutateDict
  dsimp only
  by_cases hc : prodDefault && ! dictContains
      (dictSet (dictSet d "type" (PyVal.s typeTag)) "system" (PyVal.s nameSystem)) "production"
  · rw [if_pos hc, dictGet_dictSet_ne _ _ _ _ hk3, dictGet_dictSet_ne _ _ _ _ hk2,
      dictGet_dictSet_ne _ _ _ _ hk1]
  · rw [if_neg hc, dictGet_dictSet_ne _ _ _ _ hk2, dictGet_dictSet_ne _ _ _ _ hk1]

theorem neNodeLoop_ok (typeTag nameSystem uuidKey : String) (prodDefault : Bool)
    (hk1 : uuidKey ≠ "type") (hk2 : uuidKey ≠ "system") (hk3 : uuidKey ≠ "production") :
    ∀ (ds : List Dict) (G0 : MultiDiGraph),
      (∀ d ∈ ds, hasNameUnit d = true ∧ ∃ s, dictGet d uuidKey = some (PyVal.s s)) →
      ∃ G' ds',
        neNodeLoop typeTag nameSystem uuidKey prodDefault G0 ds = (G', ds', Option.none) ∧
        nodeIds G'
          = ds.foldl (fun acc d => specInsertNew acc (specUuidField d uuidKey)) (nodeIds G0) ∧
        G'.edges = G0.edges := by
  intro ds
  induction ds with
  | nil =>
    intro G0 _
    exact ⟨G0, [], rfl, rfl, rfl⟩
  | cons d rest ih =>
    intro G0 h
    obtain ⟨hnu, s, hs⟩ := h d (List.mem_cons_self d rest)
    have hget : dictGet (neMutateDict typeTag nameSystem prodDefault d) uuidKey
        = some (PyVal.s s) := by
      rw [dictGet_neMutateDict_ne typeTag nameSystem prodDefault d uuidKey hk1 hk2 hk3]
      exact hs
    obtain ⟨G', rest', heq, hids, hedg⟩ :=
      ih (addNodeWith G0 s (neMutateDict typeTag nameSystem prodDefault d))
        (fun d' hd' => h d' (List.mem_cons_of_mem d hd'))
    refine ⟨G', neMutateDict typeTag nameSystem prodDefault d :: rest', ?_, ?_, ?_⟩
    · unfold neNodeLoop
      rw [if_neg (show ¬ hasNameUnit d = false from fun hc => by
        rw [hnu] at hc; exact Bool.noConfusion hc)]
      split
      · rename_i heq2
        rw [hget] at heq2
        cases heq2
      · rename_i lbl heq2
        rw [hget] at heq2
        injection heq2 with heq3
        injection heq3 with heq4
        subst heq4
        rw [heq]
      · rename_i val hne1 hne2 heq2
        rw [hget] at heq2
        injection heq2 with heq3
        exact absurd heq3.symm (hne2 s)
    · rw [hids, nodeIds_addNodeWith, List.foldl_cons]
      have : specUuidField d uuidKey = s := by
        unfold specUuidField
        rw [hs]
      rw [this]
    · rw [hedg]
      rfl

theorem nodeIds_edgeFold (es : List (String × String × Q2)) :
    ∀ G : MultiDiGraph,
      nodeIds (es.foldl
        (fun g t => addEdgeExplicit g t.1 t.2.1 (PyVal.q t.2.2) [("weight", PyVal.s "flow")]) G)
        = es.foldl (fun acc t => specInsertNew (specInsertNew acc t.1) t.2.1) (nodeIds G) := by
  induction es with
  | nil => intro G; rfl
  | cons t rest ih =>
    intro G
    rw [List.foldl_cons, List.foldl_cons, ih, nodeIds_addEdgeExplicit]

/-- C7, amended: `graph_system_from_node_and_edge_lists` validates only
the *production* sub-graph: whenever the number of distinct production
node labels (metadata key fields plus production-edge endpoints)
differs from the production metadata length, it raises `ValueError`
(the check the spec's taxonomy names `CardinalityMismatchError`); the
corresponding extension check is commented out in the source, so
collapsing extension metadata records are not detected and a graph is
returned (second conjunct, on the concrete duplicate-key input). -/
theorem C7_production_cardinality_amended :
    (∀ (nameSystem uuidKeyP uuidKeyE : String) (assignNew : Bool) (pm em : List Dict)
      (pe ee : List (String × String × Q2)) (gen : ℕ → String),
      uuidKeyP ≠ "type" → uuidKeyP ≠ "system" → uuidKeyP ≠ "production" →
      uuidKeyE ≠ "type" → uuidKeyE ≠ "system" → uuidKeyE ≠ "production" →
      (∀ d ∈ pm, hasNameUnit d = true ∧ ∃ s, dictGet d uuidKeyP = some (PyVal.s s)) →
      (∀ d ∈ em, hasNameUnit d = true ∧ ∃ s, dictGet d uuidKeyE = some (PyVal.s s)) →
      (specProdNodeKeys pm uuidKeyP pe).length ≠ pm.length →
      (graph_system_from_node_and_edge_lists nameSystem assignNew uuidKeyP uuidKeyE
        pm em pe ee gen).result
        = Except.error (PyErr.valueError
          "Number of nodes in production graph does not match number of metadata dictionaries."))
    ∧ (exEmDup.length = 2 ∧
        exC7ExtRun.result.map (fun G => (nodesOfType G "extension").length) = Except.ok 1) := by
  constructor
  · intro nameSystem uuidKeyP uuidKeyE assignNew pm em pe ee gen
      hkP1 hkP2 hkP3 hkE1 hkE2 hkE3 hpm hem hcount
    obtain ⟨GA, pm', heqA, hidsA, _⟩ :=
      neNodeLoop_ok "production" nameSystem uuidKeyP true hkP1 hkP2 hkP3 pm ⟨[], []⟩ hpm
    obtain ⟨GB, em', heqB, hidsB, _⟩ :=
      neNodeLoop_ok "extension" nameSystem uuidKeyE false hkE1 hkE2 hkE3 em ⟨[], []⟩ hem
    unfold graph_system_from_node_and_edge_lists
    split
    · rename_i fst pm2 e heq2
      rw [heqA] at heq2
      cases heq2
    · rename_i A0 pm2 heq2
      rw [heqA] at heq2
      injection heq2 with h1 h2
      injection h2 with h2 h3
      subst h1
      subst h2
      split
      · rename_i fst em2 e heq3
        rw [heqB] at heq3
        cases heq3
      · rename_i B0 em2 heq3
        rw [heqB] at heq3
        injection heq3 with g1 g2
        injection g2 with g2 g3
        subst g1
        subst g2
        dsimp only
        have hlen : (pe.foldl
            (fun g t => addEdgeExplicit g t.1 t.2.1 (PyVal.q t.2.2)
              [("weight", PyVal.s "flow")]) GA).nodes.length ≠ pm.length := by
          have hids := nodeIds_edgeFold pe GA
          rw [hidsA] at hids
          have hlen2 : ((pe.foldl
              (fun g t => addEdgeExplicit g t.1 t.2.1 (PyVal.q t.2.2)
                [("weight", PyVal.s "flow")]) GA).nodes.map Prod.fst).length
              = (specProdNodeKeys pm uuidKeyP pe).length := by
            show (nodeIds _).length = _
            rw [hids]
            rfl
          rw [List.length_map] at hlen2
          rw [hlen2]
          exact hcount
        rw [if_pos hlen]
  · exact ⟨by decide, by decide⟩

/-- C7, amended, witness: duplicate production keys (two records keyed
`A`) trigger the `ValueError`, while the duplicate-key extension input
still yields a graph. -/
theorem C7_production_cardinality_amended_witness :
    (exC7ProdRun.result = Except.error (PyErr.valueError
      "Number of nodes in production graph does not match number of metadata dictionaries.")) ∧
    (exEmDup.length = 2 ∧
      exC7ExtRun.result.map (fun G => (nodesOfType G "extension").length) = Except.ok 1) :=
  ⟨C7_production_cardinality_amended.1 "sys" "name" "name" false exPmDup exEm1 [] []
      (fun _ => "unused") (by decide) (by decide) (by decide) (by decide) (by decide)
      (by decide)
      (by
        intro d hd
        rcases List.mem_cons.mp hd with h | h
        · subst h; exact ⟨by decide, "A", by decide⟩
        · rcases List.mem_cons.mp h with h2 | h2
          · subst h2; exact ⟨by decide, "A", by decide⟩
          · cases h2)
      (by
        intro d hd
        rcases List.mem_cons.mp hd with h | h
        · subst h; exact ⟨by decide, "alpha", by decide⟩
        · cases h)
      (by decide),
    C7_production_cardinality_amended.2⟩

theorem mutateMetaList_go_true (uuidKey : String) (gen : ℕ → String) (base : ℕ)
    (typeTag nameSystem : String) (extra : ℕ → Dict → Dict) :
    ∀ (ds : List Dict) (idx : ℕ),
      (mutateMetaList.go true uuidKey gen base typeTag nameSystem extra idx ds).2
        = Option.none ∧
      (mutateMetaList.go true uuidKey gen base typeTag nameSystem extra idx ds).1.length
        = ds.length ∧
      ∀ j, j < ds.length →
        (mutateMetaList.go true uuidKey gen base typeTag nameSystem extra idx ds).1.getD j []
          = extra (idx + j)
              (specMutatedDict (gen (base + (idx + j))) (idx + j) typeTag nameSystem
                (ds.getD j [])) := by
  intro ds
  induction ds with
  | nil =>
    intro idx
    exact ⟨rfl, rfl, fun j hj => absurd hj (by simp)⟩
  | cons d rest ih =>
    intro idx
    have hred : mutateMetaList.go true uuidKey gen base typeTag nameSystem extra idx (d :: rest)
        = ((extra idx (specMutatedDict (gen (base + idx)) idx typeTag nameSystem d))
            :: (mutateMetaList.go true uuidKey gen base typeTag nameSystem extra (idx + 1) rest).1,
          (mutateMetaList.go true uuidKey gen base typeTag nameSystem extra (idx + 1) rest).2) :=
      rfl
    rw [hred]
    obtain ⟨ih1, ih2, ih3⟩ := ih (idx + 1)
    refine ⟨ih1, by simp [ih2], ?_⟩
    intro j hj
    cases j with
    | zero =>
      rw [List.getD_cons_zero, List.getD_cons_zero, Nat.add_zero]
    | succ j =>
      rw [List.getD_cons_succ, List.getD_cons_succ]
      have hsh : idx + 1 + j = idx + (j + 1) := by omega
      have := ih3 j (by rw [List.length_cons] at hj; omega)
      rw [hsh] at this
      exact this

theorem graph_system_pairing (n : String) (an : Bool) (pk ek ik mc : String)
    (gen : ℕ → String) (inp : IOInputs)
    (hpair : inp.arrayIndicator.isSome = inp.indMeta.isSome) :
    graph_system_from_input_output_matrices n an pk ek ik mc gen inp
      = ioMain n an pk ek ik mc gen inp.arrayProduction inp.arrayExtension
          inp.prodMeta inp.extMeta
          (match inp.arrayIndicator, inp.indMeta with
           | some a, some b => some (a, b)
           | _, _ => Option.none) := by
  unfold graph_system_from_input_output_matrices
  cases hia : inp.arrayIndicator with
  | none =>
    cases him : inp.indMeta with
    | none => rfl
    | some im => rw [hia, him] at hpair; simp at hpair
  | some a =>
    cases him : inp.indMeta with
    | none => rw [hia, him] at hpair; simp at hpair
    | some im => rfl

theorem mutateMetaList_eq_go (a : Bool) (u : String) (g : ℕ → String) (b : ℕ)
    (t n : String) (e : ℕ → Dict → Dict) (ds : List Dict) :
    mutateMetaList a u g b t n e ds = mutateMetaList.go a u g b t n e 0 ds := rfl

theorem ioMain_guard_conditions (E : List (List Q2))
    (ind : Option (List (List Q2) × List Dict))
    (h3 : ∀ p ∈ ind, (p.1.headD []).length = E.length)
    (h6 : ∀ p ∈ ind, p.1.length = p.2.length) :
    ¬ ((ind.map (fun p => decide ((p.1.headD []).length = E.length))).getD true = false) ∧
    ¬ ((ind.map (fun p => decide (p.1.length = p.2.length))).getD true = false) := by
  constructor
  · cases ind with
    | none => intro hc; exact Bool.noConfusion hc
    | some p =>
      intro hc
      rw [show ((some p).map (fun p => decide ((p.1.headD []).length = E.length))).getD true
          = decide ((p.1.headD []).length = E.length) from rfl] at hc
      rw [decide_eq_true (h3 p rfl)] at hc
      exact Bool.noConfusion hc
  · cases ind with
    | none => intro hc; exact Bool.noConfusion hc
    | some p =>
      intro hc
      rw [show ((some p).map (fun p => decide (p.1.length = p.2.length))).getD true
          = decide (p.1.length = p.2.length) from rfl] at hc
      rw [decide_eq_true (h6 p rfl)] at hc
      exact Bool.noConfusion hc

theorem ioMain_IA_facts (nameSystem pk ek ik : String) (gen : ℕ → String)
    (P E : List (List Q2)) (pm em : List Dict)
    (ind : Option (List (List Q2) × List Dict))
    (h1 : P.length = (P.headD []).length)
    (h2 : (E.headD []).length = P.length)
    (h3 : ∀ p ∈ ind, (p.1.headD []).length = E.length)
    (h4 : P.length = pm.length)
    (h5 : E.length = em.length)
    (h6 : ∀ p ∈ ind, p.1.length = p.2.length)
    (h7 : pm.all hasNameUnit = true)
    (h8 : allNonnegB P = true) :
    (ioMain nameSystem true pk ek ik "I-A" gen P E pm em ind).final.arrayProduction = P ∧
    (ioMain nameSystem true pk ek ik "I-A" gen P E pm em ind).final.arrayExtension = E ∧
    (ioMain nameSystem true pk ek ik "I-A" gen P E pm em ind).final.arrayIndicator
      = ind.map (fun p => p.1) ∧
    (ioMain nameSystem true pk ek ik "I-A" gen P E pm em ind).final.prodMeta.length
      = pm.length ∧
    (∀ i, i < pm.length →
      (ioMain nameSystem true pk ek ik "I-A" gen P E pm em ind).final.prodMeta.getD i []
        = dictSet (specMutatedDict (gen i) i "production" nameSystem (pm.getD i []))
            "production" (PyVal.q 1)) ∧
    (ioMain nameSystem true pk ek ik "I-A" gen P E pm em ind).final.extMeta.length
      = em.length ∧
    (∀ i, i < em.length →
      (ioMain nameSystem true pk ek ik "I-A" gen P E pm em ind).final.extMeta.getD i []
        = specMutatedDict (gen (pm.length + i)) i "extension" nameSystem (em.getD i [])) := by
  obtain ⟨hc3, hc6⟩ := ioMain_guard_conditions E ind h3 h6
  obtain ⟨hp2, hpl, hpd⟩ := mutateMetaList_go_true pk gen 0 "production" nameSystem
    (fun _ d => dictSet d "production" (PyVal.q 1)) pm 0
  obtain ⟨he2, hel, hed⟩ := mutateMetaList_go_true ek gen pm.length "extension" nameSystem
    (fun _ d => d) em 0
  unfold ioMain
  dsimp only
  rw [if_neg (fun hc => hc h1), if_neg (fun hc => hc h2), if_neg hc3,
    if_neg (fun hc => hc h4), if_neg (fun hc => hc h5), if_neg hc6,
    if_neg (not_not_intro h7),
    if_neg (fun hc => hc.1 rfl),
    if_neg (show ¬ ("I-A" : String) = "A" by decide),
    if_neg (show ¬ allNonnegB P = false by rw [h8]; exact fun hc => Bool.noConfusion hc)]
  simp only [mutateMetaList_eq_go]
  split
  · rename_i pm' e heq
    have heqc : mutateMetaList.go true pk gen 0 "production" nameSystem
        (fun _ d => dictSet d "production" (PyVal.q 1)) 0 pm = (pm', some e) := heq
    have := congrArg Prod.snd heqc
    rw [hp2] at this
    cases this
  · rename_i pm' heq
    have heqc : mutateMetaList.go true pk gen 0 "production" nameSystem
        (fun _ d => dictSet d "production" (PyVal.q 1)) 0 pm = (pm', Option.none) := heq
    have hfst : pm' = (mutateMetaList.go true pk gen 0 "production" nameSystem
        (fun _ d => dictSet d "production" (PyVal.q 1)) 0 pm).1 := by
      have := congrArg Prod.fst heqc
      exact this.symm
    split
    · rename_i em' e heq2
      have := congrArg Prod.snd heq2
      rw [he2] at this
      cases this
    · rename_i em' heq2
      have hfst2 : em' = (mutateMetaList.go true ek gen pm.length "extension" nameSystem
          (fun _ d => d) 0 em).1 := by
        have := congrArg Prod.fst heq2
        exact this.symm
      cases ind with
      | none =>
        refine ⟨rfl, rfl, rfl, ?_, ?_, ?_, ?_⟩
        · show pm'.length = pm.length
          rw [hfst, hpl]
        · intro i hi
          show pm'.getD i [] = _
          rw [hfst, hpd i hi]
          simp only [Nat.zero_add]
        · show em'.length = em.length
          rw [hfst2, hel]
        · intro i hi
          show em'.getD i [] = _
          rw [hfst2, hed i hi]
          simp only [Nat.zero_add]
      | some p =>
        cases p with
        | mk indArr im =>
          dsimp only
          split
          · rename_i im' e heq3
            have := congrArg Prod.snd heq3
            rw [(mutateMetaList_go_true ik gen (pm.length + em.length) "indicator" nameSystem
              (fun _ d => d) im 0).1] at this
            cases this
          · rename_i im' heq3
            refine ⟨rfl, rfl, rfl, ?_, ?_, ?_, ?_⟩
            · show pm'.length = pm.length
              rw [hfst, hpl]
            · intro i hi
              show pm'.getD i [] = _
              rw [hfst, hpd i hi]
              simp only [Nat.zero_add]
            · show em'.length = em.length
              rw [hfst2, hel]
            · intro i hi
              show em'.getD i [] = _
              rw [hfst2, hed i hi]
              simp only [Nat.zero_add]

theorem ioMain_A_facts (nameSystem pk ek ik : String) (gen : ℕ → String)
    (P E : List (List Q2)) (pm em : List Dict)
    (ind : Option (List (List Q2) × List Dict))
    (h1 : P.length = (P.headD []).length)
    (h2 : (E.headD []).length = P.length)
    (h3 : ∀ p ∈ ind, (p.1.headD []).length = E.length)
    (h4 : P.length = pm.length)
    (h5 : E.length = em.length)
    (h6 : ∀ p ∈ ind, p.1.length = p.2.length)
    (h7 : pm.all hasNameUnit = true) :
    (ioMain nameSystem true pk ek ik "A" gen P E pm em ind).result
      = Except.error (PyErr.nameError "A") ∧
    (ioMain nameSystem true pk ek ik "A" gen P E pm em ind).final.arrayProduction
      = zeroDiagonal P ∧
    (ioMain nameSystem true pk ek ik "A" gen P E pm em ind).final.arrayExtension = E ∧
    (ioMain nameSystem true pk ek ik "A" gen P E pm em ind).final.prodMeta = pm ∧
    (ioMain nameSystem true pk ek ik "A" gen P E pm em ind).final.extMeta = em := by
  obtain ⟨hc3, hc6⟩ := ioMain_guard_conditions E ind h3 h6
  unfold ioMain
  dsimp only
  rw [if_neg (fun hc => hc h1), if_neg (fun hc => hc h2), if_neg hc3,
    if_neg (fun hc => hc h4), if_neg (fun hc => hc h5), if_neg hc6,
    if_neg (not_not_intro h7),
    if_neg (show ¬ (("A" : String) ≠ "I-A" ∧ ("A" : String) ≠ "A") from fun hc => hc.2 rfl),
    if_pos (rfl : ("A" : String) = "A")]
  exact ⟨rfl, rfl, rfl, rfl, rfl⟩

/-- C10, amended: the in-place frame effects of
`graph_system_from_input_output_matrices` depend on the convention.
Under `matrix_convention="I-A"` (with valid inputs) the caller's array
is left untouched while every production metadata dictionary is mutated
in place into `specMutatedDict` (keys `uuid`, `index`, `type`, `system`)
plus `production = 1`, and every extension metadata dictionary into
`specMutatedDict` — this happens whether or not a graph is returned.
Under `matrix_convention="A"` the diagonal of the caller's production
array is zeroed in place, but the call then raises `UnboundLocalError`
before the metadata loops run, so no metadata dictionary is modified. -/
theorem C10_frame_effects_amended (nameSystem pk ek ik : String) (gen : ℕ → String)
    (P E : List (List Q2)) (pm em : List Dict)
    (ind : Option (List (List Q2) × List Dict))
    (h1 : P.length = (P.headD []).length)
    (h2 : (E.headD []).length = P.length)
    (h3 : ∀ p ∈ ind, (p.1.headD []).length = E.length)
    (h4 : P.length = pm.length)
    (h5 : E.length = em.length)
    (h6 : ∀ p ∈ ind, p.1.length = p.2.length)
    (h7 : pm.all hasNameUnit = true) :
    (allNonnegB P = true →
      ((graph_system_from_input_output_matrices nameSystem true pk ek ik "I-A" gen
          (ioInputsOf P E pm em ind)).final.arrayProduction = P ∧
       (graph_system_from_input_output_matrices nameSystem true pk ek ik "I-A" gen
          (ioInputsOf P E pm em ind)).final.prodMeta.length = pm.length ∧
       (∀ i, i < pm.length →
         (graph_system_from_input_output_matrices nameSystem true pk ek ik "I-A" gen
            (ioInputsOf P E pm em ind)).final.prodMeta.getD i []
           = dictSet (specMutatedDict (gen i) i "production" nameSystem (pm.getD i []))
               "production" (PyVal.q 1)) ∧
       (graph_system_from_input_output_matrices nameSystem true pk ek ik "I-A" gen
          (ioInputsOf P E pm em ind)).final.extMeta.length = em.length ∧
       (∀ i, i < em.length →
         (graph_system_from_input_output_matrices nameSystem true pk ek ik "I-A" gen
            (ioInputsOf P E pm em ind)).final.extMeta.getD i []
           = specMutatedDict (gen (pm.length + i)) i "extension" nameSystem
               (em.getD i [])))) ∧
    ((graph_system_from_input_output_matrices nameSystem true pk ek ik "A" gen
        (ioInputsOf P E pm em ind)).result = Except.error (PyErr.nameError "A") ∧
     (graph_system_from_input_output_matrices nameSystem true pk ek ik "A" gen
        (ioInputsOf P E pm em ind)).final.arrayProduction = zeroDiagonal P ∧
     (graph_system_from_input_output_matrices nameSystem true pk ek ik "A" gen
        (ioInputsOf P E pm em ind)).final.prodMeta = pm ∧
     (graph_system_from_input_output_matrices nameSystem true pk ek ik "A" gen
        (ioInputsOf P E pm em ind)).final.extMeta = em) := by
  have hpair : (ioInputsOf P E pm em ind).arrayIndicator.isSome
      = (ioInputsOf P E pm em ind).indMeta.isSome := by
    cases ind <;> rfl
  have hmatch : (match (ioInputsOf P E pm em ind).arrayIndicator,
      (ioInputsOf P E pm em ind).indMeta with
      | some a, some b => some (a, b)
      | _, _ => Option.none) = ind := by
    cases ind <;> rfl
  have hIA := graph_system_pairing nameSystem true pk ek ik "I-A" gen
    (ioInputsOf P E pm em ind) hpair
  have hA := graph_system_pairing nameSystem true pk ek ik "A" gen
    (ioInputsOf P E pm em ind) hpair
  rw [hmatch] at hIA hA
  constructor
  · intro h8
    have hf := ioMain_IA_facts nameSystem pk ek ik gen P E pm em ind
      h1 h2 h3 h4 h5 h6 h7 h8
    rw [hIA]
    dsimp only [ioInputsOf]
    exact ⟨hf.1, hf.2.2.2.1, hf.2.2.2.2.1, hf.2.2.2.2.2.1, hf.2.2.2.2.2.2⟩
  · have hf := ioMain_A_facts nameSystem pk ek ik gen P E pm em ind
      h1 h2 h3 h4 h5 h6 h7
    rw [hA]
    dsimp only [ioInputsOf]
    exact ⟨hf.1, hf.2.1, hf.2.2.2.1, hf.2.2.2.2⟩

/-- Witness for `C10_frame_effects_amended` on the concrete system
`P = [[2]]`, `E = [[3]]`, one production and one extension metadata
dictionary, no indicator: under `I-A` the first production dictionary
is mutated into the uuid/index/type/system/production form, and under
`A` the caller's array comes back with its diagonal zeroed. -/
theorem C10_frame_effects_amended_witness :
    ((graph_system_from_input_output_matrices "sys" true "pid" "eid" "iid" "I-A"
        (fun _ => "u") (ioInputsOf [[2]] [[3]]
          [[("name", PyVal.s "pA"), ("unit", PyVal.s "kg")]]
          [[("name", PyVal.s "eA"), ("unit", PyVal.s "kg")]]
          Option.none)).final.prodMeta.getD 0 []
      = dictSet (specMutatedDict "u" 0 "production" "sys"
          [("name", PyVal.s "pA"), ("unit", PyVal.s "kg")]) "production" (PyVal.q 1)) ∧
    ((graph_system_from_input_output_matrices "sys" true "pid" "eid" "iid" "A"
        (fun _ => "u") (ioInputsOf [[2]] [[3]]
          [[("name", PyVal.s "pA"), ("unit", PyVal.s "kg")]]
          [[("name", PyVal.s "eA"), ("unit", PyVal.s "kg")]]
          Option.none)).final.arrayProduction = zeroDiagonal [[2]]) := by
  have h := C10_frame_effects_amended "sys" "pid" "eid" "iid" (fun _ => "u")
    [[2]] [[3]]
    [[("name", PyVal.s "pA"), ("unit", PyVal.s "kg")]]
    [[("name", PyVal.s "eA"), ("unit", PyVal.s "kg")]]
    Option.none (by decide) (by decide) (by intro p hp; simp at hp)
    (by decide) (by decide) (by intro p hp; simp at hp) (by decide)
  exact ⟨(h.1 (by decide)).2.2.1 0 (by decide), h.2.2.1⟩
